import Mathlib

/-!
Verification development for the Redis MCP tool layer
(`src/tools/string.py` and `src/tools/list.py`).

The Python tools are shallowly embedded below.  Byte strings are modelled as
`List Nat` (each entry one byte), Python `str` as Lean `String`, the Redis
backing store as association lists, and every Redis client primitive as a
state-passing call that can fail with a `RedisError` (either intrinsically,
per the Redis command contract, or through an injected fault schedule that
models network/store failures).  Each primitive call is also logged in a
trace, which records exactly which commands were transmitted to the store
and with which payloads.
-/

/-- Byte strings (Python `bytes`): lists of byte values. -/
abbrev ByteSeq := List Nat

/-! ### UTF-8 codec

Embeds Python's `str.encode("utf-8")` and strict `bytes.decode("utf-8")`
(the decoder rejects overlong forms, surrogates, and out-of-range values,
exactly as CPython's strict UTF-8 codec does). -/

/-- UTF-8 encoding of a single code point (Python's `str.encode("utf-8")`,
per scalar value). -/
def utf8EncodeCp (n : Nat) : ByteSeq :=
  if n < 0x80 then [n]
  else if n < 0x800 then [0xC0 + n / 0x40, 0x80 + n % 0x40]
  else if n < 0x10000 then
    [0xE0 + n / 0x1000, 0x80 + n / 0x40 % 0x40, 0x80 + n % 0x40]
  else
    [0xF0 + n / 0x40000, 0x80 + n / 0x1000 % 0x40, 0x80 + n / 0x40 % 0x40,
      0x80 + n % 0x40]

/-- A UTF-8 continuation byte. -/
def isCont (b : Nat) : Bool := 0x80 ≤ b && b < 0xC0

/-- Strict UTF-8 decoding of one code point from the front of a byte string,
returning the code point and the remaining bytes; `none` on malformed input
(as CPython's strict decoder, which rejects overlong encodings, surrogates
and values above U+10FFFF). -/
def utf8DecodeOne : ByteSeq → Option (Nat × ByteSeq)
  | [] => none
  | b0 :: r =>
    if b0 < 0x80 then some (b0, r)
    else if b0 < 0xC2 then none
    else if b0 < 0xE0 then
      match r with
      | b1 :: r1 =>
        if isCont b1 then some ((b0 - 0xC0) * 0x40 + (b1 - 0x80), r1) else none
      | [] => none
    else if b0 < 0xF0 then
      match r with
      | b1 :: b2 :: r2 =>
        if isCont b1 && isCont b2 then
          let n := (b0 - 0xE0) * 0x1000 + (b1 - 0x80) * 0x40 + (b2 - 0x80)
          if n < 0x800 || (decide (0xD800 ≤ n) && decide (n < 0xE000)) then none
          else some (n, r2)
        else none
      | _ => none
    else if b0 < 0xF5 then
      match r with
      | b1 :: b2 :: b3 :: r3 =>
        if isCont b1 && isCont b2 && isCont b3 then
          let n := (b0 - 0xF0) * 0x40000 + (b1 - 0x80) * 0x1000 +
            (b2 - 0x80) * 0x40 + (b3 - 0x80)
          if n < 0x10000 || 0x110000 ≤ n then none else some (n, r3)
        else none
      | _ => none
    else none

/-- Strict UTF-8 decoding of a whole byte string into code points (fuelled by
the byte count; each step consumes at least one byte). -/
def utf8DecodeAll : Nat → ByteSeq → Option (List Nat)
  | _, [] => some []
  | 0, _ :: _ => none
  | fuel + 1, b :: r =>
    match utf8DecodeOne (b :: r) with
    | some (n, rest) => (utf8DecodeAll fuel rest).map (fun ns => n :: ns)
    | none => none

/-- Python `s.encode("utf-8")`. -/
def pyEncodeStr (s : String) : ByteSeq :=
  (s.data.map (fun c => utf8EncodeCp c.toNat)).flatten

/-- Python `b.decode("utf-8")` with strict errors: `some` of the decoded text,
or `none` when a `UnicodeDecodeError` would be raised. -/
def utf8DecodeStr (b : ByteSeq) : Option String :=
  (utf8DecodeAll b.length b).map (fun ns => String.mk (ns.map Char.ofNat))

theorem utf8DecodeOne_encode (n : Nat) (h : n.isValidChar) (rest : ByteSeq) :
    utf8DecodeOne (utf8EncodeCp n ++ rest) = some (n, rest) := by
  have hlt : n < 0x110000 := by
    rcases h with h | ⟨_, h2⟩ <;> omega
  have hsur : n < 0xD800 ∨ 0xDFFF < n := by
    rcases h with h | ⟨h1, _⟩
    · exact Or.inl h
    · exact Or.inr h1
  by_cases h1 : n < 0x80
  · simp [utf8EncodeCp, utf8DecodeOne, h1]
  · by_cases h2 : n < 0x800
    · have e1 : ¬ (0xC0 + n / 0x40 < 0x80) := by omega
      have e2 : ¬ (0xC0 + n / 0x40 < 0xC2) := by omega
      have e3 : 0xC0 + n / 0x40 < 0xE0 := by omega
      have e4 : isCont (0x80 + n % 0x40) = true := by
        simp only [isCont, Bool.and_eq_true, decide_eq_true_eq]
        omega
      simp only [utf8EncodeCp, h1, h2, if_true, if_false, List.cons_append,
        List.nil_append, utf8DecodeOne, e1, if_neg e1, e2, if_neg e2, e3,
        if_pos e3, e4, if_pos e4, Option.some.injEq, Prod.mk.injEq, and_true]
      omega
    · by_cases h3 : n < 0x10000
      · have e1 : ¬ (0xE0 + n / 0x1000 < 0x80) := by omega
        have e2 : ¬ (0xE0 + n / 0x1000 < 0xC2) := by omega
        have e3 : ¬ (0xE0 + n / 0x1000 < 0xE0) := by omega
        have e4 : 0xE0 + n / 0x1000 < 0xF0 := by omega
        have e5 : isCont (0x80 + n / 0x40 % 0x40) = true := by
          simp only [isCont, Bool.and_eq_true, decide_eq_true_eq]; omega
        have e6 : isCont (0x80 + n % 0x40) = true := by
          simp only [isCont, Bool.and_eq_true, decide_eq_true_eq]; omega
        have hrec : (0xE0 + n / 0x1000 - 0xE0) * 0x1000 +
            (0x80 + n / 0x40 % 0x40 - 0x80) * 0x40 + (0x80 + n % 0x40 - 0x80)
            = n := by omega
        have e7 : ((0xE0 + n / 0x1000 - 0xE0) * 0x1000 +
            (0x80 + n / 0x40 % 0x40 - 0x80) * 0x40 + (0x80 + n % 0x40 - 0x80)
            < 0x800 ||
            (decide (0xD800 ≤ (0xE0 + n / 0x1000 - 0xE0) * 0x1000 +
              (0x80 + n / 0x40 % 0x40 - 0x80) * 0x40 + (0x80 + n % 0x40 - 0x80))
              && decide ((0xE0 + n / 0x1000 - 0xE0) * 0x1000 +
              (0x80 + n / 0x40 % 0x40 - 0x80) * 0x40 + (0x80 + n % 0x40 - 0x80)
              < 0xE000))) = false := by
          rw [hrec]
          simp only [Bool.or_eq_false_iff, decide_eq_false_iff_not,
            Bool.and_eq_false_iff, decide_eq_true_eq, not_lt, not_le]
          omega
        simp only [utf8EncodeCp, h1, h2, h3, if_true, if_false,
          List.cons_append, List.nil_append, utf8DecodeOne, e1, if_neg e1, e2,
          if_neg e2, e3, if_neg e3, e4, if_pos e4, e5, e6, Bool.and_self,
          if_true, e7, Bool.false_eq_true, if_false, Option.some.injEq,
          Prod.mk.injEq, and_true]
        omega
      · have e1 : ¬ (0xF0 + n / 0x40000 < 0x80) := by omega
        have e2 : ¬ (0xF0 + n / 0x40000 < 0xC2) := by omega
        have e3 : ¬ (0xF0 + n / 0x40000 < 0xE0) := by omega
        have e4 : ¬ (0xF0 + n / 0x40000 < 0xF0) := by omega
        have e5 : 0xF0 + n / 0x40000 < 0xF5 := by omega
        have c1 : isCont (0x80 + n / 0x1000 % 0x40) = true := by
          simp only [isCont, Bool.and_eq_true, decide_eq_true_eq]; omega
        have c2 : isCont (0x80 + n / 0x40 % 0x40) = true := by
          simp only [isCont, Bool.and_eq_true, decide_eq_true_eq]; omega
        have c3 : isCont (0x80 + n % 0x40) = true := by
          simp only [isCont, Bool.and_eq_true, decide_eq_true_eq]; omega
        have e6 : ((0xF0 + n / 0x40000 - 0xF0) * 0x40000 +
            (0x80 + n / 0x1000 % 0x40 - 0x80) * 0x1000 +
            (0x80 + n / 0x40 % 0x40 - 0x80) * 0x40 + (0x80 + n % 0x40 - 0x80)
            < 0x10000 || 0x110000 ≤
            (0xF0 + n / 0x40000 - 0xF0) * 0x40000 +
            (0x80 + n / 0x1000 % 0x40 - 0x80) * 0x1000 +
            (0x80 + n / 0x40 % 0x40 - 0x80) * 0x40 + (0x80 + n % 0x40 - 0x80))
            = false := by
          simp only [Bool.or_eq_false_iff, decide_eq_false_iff_not, not_lt,
            not_le]
          omega
        simp only [utf8EncodeCp, h1, h2, h3, if_true, if_false,
          List.cons_append, List.nil_append, utf8DecodeOne, e1, if_neg e1, e2,
          if_neg e2, e3, if_neg e3, e4, if_neg e4, e5, if_pos e5, c1, c2, c3,
          Bool.and_self, if_true, e6, Bool.false_eq_true, if_false,
          Option.some.injEq, Prod.mk.injEq, and_true]
        omega

theorem utf8EncodeCp_length_pos (n : Nat) : 0 < (utf8EncodeCp n).length := by
  unfold utf8EncodeCp
  split <;> simp_all <;> split <;> simp_all <;> split <;> simp_all

theorem utf8EncodeCp_exists_cons (n : Nat) :
    ∃ b t, utf8EncodeCp n = b :: t := by
  rcases hl : utf8EncodeCp n with _ | ⟨b, t⟩
  · have := utf8EncodeCp_length_pos n
    rw [hl] at this
    simp at this
  · exact ⟨b, t, rfl⟩

/-- UTF-8 encoding of a list of code points. -/
def utf8EncodeList (cps : List Nat) : ByteSeq :=
  (cps.map utf8EncodeCp).flatten

theorem utf8DecodeAll_encode (cps : List Nat)
    (h : ∀ n ∈ cps, n.isValidChar) :
    ∀ fuel, (utf8EncodeList cps).length ≤ fuel →
      utf8DecodeAll fuel (utf8EncodeList cps) = some cps := by
  induction cps with
  | nil =>
    intro fuel _
    cases fuel <;> simp [utf8EncodeList, utf8DecodeAll]
  | cons c cs ih =>
    intro fuel hf
    have hcons : utf8EncodeList (c :: cs) =
        utf8EncodeCp c ++ utf8EncodeList cs := by
      simp [utf8EncodeList]
    obtain ⟨b, t, hbt⟩ := utf8EncodeCp_exists_cons c
    have hlen : 0 < (utf8EncodeList (c :: cs)).length := by
      rw [hcons, List.length_append]
      have := utf8EncodeCp_length_pos c
      omega
    rcases fuel with _ | f
    · omega
    rw [hcons, hbt, List.cons_append]
    show utf8DecodeAll (f + 1) (b :: (t ++ utf8EncodeList cs)) = _
    rw [utf8DecodeAll]
    rw [← List.cons_append, ← hbt,
      utf8DecodeOne_encode c (h c (by simp)) (utf8EncodeList cs)]
    have hih := ih (fun n hn => h n (by simp [hn])) f (by
      rw [hcons, List.length_append] at hf
      have hb := utf8EncodeCp_length_pos c
      omega)
    show Option.map (fun ns => c :: ns) (utf8DecodeAll f (utf8EncodeList cs))
      = some (c :: cs)
    rw [hih]
    rfl

theorem char_toNat_isValidChar (c : Char) : c.toNat.isValidChar := c.valid

theorem pyEncodeStr_eq (s : String) :
    pyEncodeStr s = utf8EncodeList (s.data.map Char.toNat) := by
  unfold pyEncodeStr utf8EncodeList
  rw [List.map_map]
  rfl

/-- Strict UTF-8 decoding inverts Python's UTF-8 encoding. -/
theorem utf8DecodeStr_encode (s : String) :
    utf8DecodeStr (pyEncodeStr s) = some s := by
  rw [utf8DecodeStr, pyEncodeStr_eq,
    utf8DecodeAll_encode (s.data.map Char.toNat)
      (by intro n hn; simp at hn; obtain ⟨c, _, hc⟩ := hn
          rw [← hc]; exact char_toNat_isValidChar c)
      _ le_rfl]
  have hmap : ∀ l : List Char, (l.map Char.toNat).map Char.ofNat = l := by
    intro l
    induction l with
    | nil => rfl
    | cons c t iht => simp [iht, Char.ofNat_toNat]
  show some (String.mk (((s.data.map Char.toNat)).map Char.ofNat)) = some s
  rw [hmap]

/-! ### JSON serialization

Embeds Python's `json.dumps` with its default options (`ensure_ascii=True`,
separators `", "` and `": "`, insertion-ordered keys).  Tool inputs arrive
through a JSON-RPC protocol layer, so dictionary arguments are always
JSON-representable values; `JVal` models exactly that input space. -/

/-- Lowercase hexadecimal digit. -/
def hexDigitCh (n : Nat) : Char :=
  if n < 10 then Char.ofNat (48 + n) else Char.ofNat (87 + n)

/-- Four lowercase hex digits, as in a JSON `\uXXXX` escape. -/
def hex4 (n : Nat) : String :=
  String.mk [hexDigitCh (n / 0x1000 % 16), hexDigitCh (n / 0x100 % 16),
    hexDigitCh (n / 16 % 16), hexDigitCh (n % 16)]

/-- Python `json.dumps` escaping of one character (`ensure_ascii=True`:
everything outside `0x20`-`0x7E` becomes a `\uXXXX` escape, astral code
points a surrogate pair). -/
def jsonEscChar (c : Char) : String :=
  if c = Char.ofNat 34 then "\\\""
  else if c = Char.ofNat 92 then "\\\\"
  else if c = Char.ofNat 8 then "\\b"
  else if c = Char.ofNat 9 then "\\t"
  else if c = Char.ofNat 10 then "\\n"
  else if c = Char.ofNat 12 then "\\f"
  else if c = Char.ofNat 13 then "\\r"
  else if c.toNat < 0x20 then "\\u" ++ hex4 c.toNat
  else if c.toNat ≤ 0x7E then String.singleton c
  else if c.toNat < 0x10000 then "\\u" ++ hex4 c.toNat
  else
    "\\u" ++ hex4 (0xD800 + (c.toNat - 0x10000) / 0x400) ++
      "\\u" ++ hex4 (0xDC00 + (c.toNat - 0x10000) % 0x400)

/-- A JSON string literal as `json.dumps` renders it. -/
def jsonQuote (s : String) : String :=
  "\"" ++ String.join (s.data.map jsonEscChar) ++ "\""

/-- JSON-representable Python values (the value space of `dict` arguments
arriving over the JSON-RPC tool protocol).  A float member is modelled by
its decimal repr text, which is all `json.dumps` uses of it. -/
inductive JVal
  | null
  | jbool (b : Bool)
  | jint (i : Int)
  | jnumr (r : String)
  | jstr (s : String)
  | jarr (xs : List JVal)
  | jobj (fs : List (String × JVal))

mutual

/-- Python `json.dumps` of one JSON value (default options). -/
def jsonDumpsV : JVal → String
  | .null => "null"
  | .jbool true => "true"
  | .jbool false => "false"
  | .jint i => toString i
  | .jnumr r => r
  | .jstr s => jsonQuote s
  | .jarr xs => "[" ++ String.intercalate ", " (jsonDumpsL xs) ++ "]"
  | .jobj fs => "\x7b" ++ String.intercalate ", " (jsonDumpsF fs) ++ "\x7d"

/-- `json.dumps` of the elements of a JSON array. -/
def jsonDumpsL : List JVal → List String
  | [] => []
  | v :: t => jsonDumpsV v :: jsonDumpsL t

/-- `json.dumps` of the members of a JSON object. -/
def jsonDumpsF : List (String × JVal) → List String
  | [] => []
  | (k, v) :: t => (jsonQuote k ++ ": " ++ jsonDumpsV v) :: jsonDumpsF t

end

/-- Python `json.dumps` of a dict (string-keyed, insertion order kept). -/
def jsonDumps (fs : List (String × JVal)) : String := jsonDumpsV (.jobj fs)

/-! ### Python values and their textual forms -/

/-- The scalar argument space of the tools: Python
`Union[str, bytes, int, float, dict]`.  A float argument is modelled by its
repr text, which is all the string tools use of it (`str(value)`). -/
inductive PyVal
  | str (s : String)
  | bytes (b : ByteSeq)
  | int (i : Int)
  | float (r : String)
  | dict (fs : List (String × JVal))

/-- The `value` argument of `lpush`/`rpush`: a single scalar/object or a
Python list of such. -/
inductive PushVal
  | single (v : PyVal)
  | listOf (vs : List PyVal)

mutual

/-- Python `repr` of a JSON-derived object (used only inside f-string
confirmation messages; quote/control escaping inside string reprs is not
reproduced, no claim observes it). -/
def pyReprJ : JVal → String
  | .null => "None"
  | .jbool true => "True"
  | .jbool false => "False"
  | .jint i => toString i
  | .jnumr r => r
  | .jstr s => "\x27" ++ s ++ "\x27"
  | .jarr xs => "[" ++ String.intercalate ", " (pyReprJL xs) ++ "]"
  | .jobj fs => "\x7b" ++ String.intercalate ", " (pyReprJF fs) ++ "\x7d"

/-- `repr` of the elements of a Python list. -/
def pyReprJL : List JVal → List String
  | [] => []
  | v :: t => pyReprJ v :: pyReprJL t

/-- `repr` of the items of a Python dict. -/
def pyReprJF : List (String × JVal) → List String
  | [] => []
  | (k, v) :: t => ("\x27" ++ k ++ "\x27: " ++ pyReprJ v) :: pyReprJF t

end

/-- Python `repr` of a tool scalar argument (message rendering only). -/
def pyReprV : PyVal → String
  | .str s => "\x27" ++ s ++ "\x27"
  | .bytes b => "b\x27" ++ String.mk (b.map Char.ofNat) ++ "\x27"
  | .int i => toString i
  | .float r => r
  | .dict fs => pyReprJ (.jobj fs)

/-- Python `str` of a tool scalar argument. -/
def pyStrV : PyVal → String
  | .str s => s
  | .bytes b => pyReprV (.bytes b)
  | .int i => toString i
  | .float r => r
  | .dict fs => pyReprJ (.jobj fs)

/-- Python `str` of a push argument (f-string rendering of `value`). -/
def pyStrPush : PushVal → String
  | .single v => pyStrV v
  | .listOf vs => "[" ++ String.intercalate ", " (vs.map pyReprV) ++ "]"

/-! ### Numeric string parsing (Redis side)

Redis parses stored byte strings when asked to do arithmetic on them
(`INCR`, `INCRBYFLOAT`).  Leading-zero/exponent corner cases of the Redis
parsers are not reproduced; no claim depends on them. -/

/-- Accumulate decimal digits; `none` on a non-digit byte. -/
def digitsToNatAux : List Nat → Nat → Option Nat
  | [], acc => some acc
  | d :: t, acc =>
    if 48 ≤ d && d ≤ 57 then digitsToNatAux t (acc * 10 + (d - 48)) else none

/-- A non-empty run of decimal digit bytes as a number. -/
def digitsToNat : List Nat → Option Nat
  | [] => none
  | l => digitsToNatAux l 0

/-- Redis integer parsing of a stored byte string (`INCR`/`DECR` operand). -/
def parseIntB (b : ByteSeq) : Option Int :=
  match b with
  | 45 :: rest => (digitsToNat rest).map (fun n => -(n : Int))
  | _ => (digitsToNat b).map (fun n => (n : Int))

/-- Unsigned decimal (optionally with a fraction part) as an exact rational. -/
def parseUnsignedRat (b : ByteSeq) : Option ℚ :=
  match b.splitOn 46 with
  | [ip] => (digitsToNat ip).map (fun n => (n : ℚ))
  | [ip, fp] =>
    match digitsToNat ip, digitsToNat fp with
    | some i, some f => some ((i : ℚ) + (f : ℚ) / ((10 : ℚ) ^ fp.length))
    | _, _ => none
  | _ => none

/-- Redis float parsing of a stored byte string (`INCRBYFLOAT` operand),
modelled exactly over the rationals. -/
def parseRatB (b : ByteSeq) : Option ℚ :=
  match b with
  | 45 :: rest => (parseUnsignedRat rest).map (fun q => -q)
  | _ => parseUnsignedRat b

/-! ### The backing store

The store is the external Redis server reached through the repository's
`RedisConnectionManager` (that module is not part of the given sources).
String cells hold either raw bytes (written by `SET`/`SETEX`) or a number
(written by `INCR`-family commands, whose decimal re-formatting by the
server is abstracted to the exact value).  List cells hold byte strings.
Key expiration timing is not modelled (no clock); `SETEX`/`EXPIRE` are
modelled by their command contract and their transmission is recorded in
the trace. -/

/-- A Redis string cell. -/
inductive Cell
  | bytes (b : ByteSeq)
  | num (q : ℚ)
deriving DecidableEq

/-- The numeric reading of a string cell, as Redis `INCRBYFLOAT` parses it. -/
def cellNum : Cell → Option ℚ
  | .num q => some q
  | .bytes b => parseRatB b

/-- The integer reading of a string cell, as Redis `INCR` parses it. -/
def cellInt : Cell → Option Int
  | .num q => if q.den = 1 then some q.num else none
  | .bytes b => parseIntB b

/-- The raw bytes of a string cell as returned by `GET` (the server keeps
numeric cells as decimal text; the exact formatting is abstracted, no claim
observes it). -/
def cellBytes : Cell → ByteSeq
  | .bytes b => b
  | .num q => pyEncodeStr (toString q)

/-- Association-list lookup (Redis keyspace). -/
def lookupA {α : Type} (k : String) : List (String × α) → Option α
  | [] => none
  | (k1, v) :: t => if k = k1 then some v else lookupA k t

/-- Association-list update/insert. -/
def updateA {α : Type} (k : String) (v : α) : List (String × α) → List (String × α)
  | [] => [(k, v)]
  | (k1, v1) :: t => if k = k1 then (k, v) :: t else (k1, v1) :: updateA k v t

/-- The Redis store state: string keys and list keys (the spec scopes keys
per data type, so the two namespaces are separate maps). -/
structure Store where
  strings : List (String × Cell)
  lists : List (String × List ByteSeq)
deriving DecidableEq

/-- One store command as transmitted to Redis (payloads included). -/
inductive Event
  | setEv (k : String) (v : ByteSeq)
  | setexEv (k : String) (ttl : Int) (v : ByteSeq)
  | getEv (k : String)
  | incrEv (k : String)
  | decrEv (k : String)
  | incrByFloatEv (k : String) (a : ℚ)
  | lpushEv (k : String) (vs : List ByteSeq)
  | rpushEv (k : String) (vs : List ByteSeq)
  | lpopEv (k : String)
  | rpopEv (k : String)
  | lrangeEv (k : String) (start stop : Int)
  | llenEv (k : String)
  | expireEv (k : String) (ttl : Int)
deriving DecidableEq

/-- Distinguishable Python exception classes at the tool boundary:
`RedisError` (what the tools catch) versus anything else (what would
escape). -/
inductive PyExc
  | redisError (msg : String)
  | otherExc (msg : String)
deriving DecidableEq

/-- Tool-call state: the store, a fault schedule (one entry consumed per
store command; `some msg` makes that command fail with a `RedisError`,
an empty schedule means no injected failures), and the transmission
trace. -/
structure RState where
  store : Store
  faults : List (Option String)
  trace : List Event
deriving DecidableEq

/-- A tool result: a Python `str`, `bytes`, or `int` return value. -/
inductive Ret
  | rs (s : String)
  | rb (b : ByteSeq)
  | ri (i : Int)
deriving DecidableEq

/-- Run one store command: record its transmission, consume one fault
schedule entry (an injected fault raises `RedisError` in the client), and
otherwise apply the command's own contract, whose intrinsic rejections
also raise `RedisError`. -/
def runPrim {α : Type} (ev : Event) (act : Store → Except String (α × Store))
    (st : RState) : Except PyExc α × RState :=
  let st1 : RState := { st with trace := st.trace ++ [ev] }
  match st1.faults with
  | some msg :: rest => (.error (.redisError msg), { st1 with faults := rest })
  | none :: rest =>
    (match act st1.store with
     | .ok (a, s1) => (.ok a, { st1 with store := s1, faults := rest })
     | .error m => (.error (.redisError m), { st1 with faults := rest }))
  | [] =>
    match act st1.store with
    | .ok (a, s1) => (.ok a, { st1 with store := s1 })
    | .error m => (.error (.redisError m), st1)

/-- The `try/except RedisError` wrapper common to every tool: a raised
`RedisError` becomes the handler's message; any other exception would
propagate. -/
def catchRedis {α : Type} (body : RState → Except PyExc α × RState)
    (handler : String → α) (st : RState) : Except PyExc α × RState :=
  match body st with
  | (.error (.redisError m), st1) => (.ok (handler m), st1)
  | r => r

/-- A tool body that issues a single store command. -/
def oneCall {α : Type} (ev : Event) (act : Store → Except String (α × Store))
    (onOk : α → Ret) (handler : String → Ret) (st : RState) :
    Except PyExc Ret × RState :=
  catchRedis
    (fun s0 =>
      match runPrim ev act s0 with
      | (.error e, s1) => (.error e, s1)
      | (.ok a, s1) => (.ok (onOk a), s1))
    handler st

/-- A tool body that issues a push command and then, when a truthy `expire`
was supplied, a second `EXPIRE` command. -/
def pushCall (ev : Event) (act : Store → Except String (Int × Store))
    (doExpire : Bool) (ev2 : Event) (act2 : Store → Except String (Unit × Store))
    (okRet : Ret) (handler : String → Ret) (st : RState) :
    Except PyExc Ret × RState :=
  catchRedis
    (fun s0 =>
      match runPrim ev act s0 with
      | (.error e, s1) => (.error e, s1)
      | (.ok _, s1) =>
        if doExpire then
          match runPrim ev2 act2 s1 with
          | (.error e, s2) => (.error e, s2)
          | (.ok _, s2) => (.ok okRet, s2)
        else (.ok okRet, s1))
    handler st

/-! ### Store command contracts -/

/-- `SET key value`. -/
def setAct (k : String) (v : ByteSeq) : Store → Except String (Unit × Store) :=
  fun s => .ok ((), { s with strings := updateA k (.bytes v) s.strings })

/-- `SETEX key ttl value`: atomic set-with-expiration; Redis rejects a
non-positive ttl. -/
def setexAct (k : String) (ttl : Int) (v : ByteSeq) :
    Store → Except String (Unit × Store) :=
  fun s =>
    if ttl ≤ 0 then .error ("invalid expire time in \x27setex\x27 command")
    else .ok ((), { s with strings := updateA k (.bytes v) s.strings })

/-- `GET key`: the stored bytes, or `none` when the key is absent. -/
def getAct (k : String) : Store → Except String (Option ByteSeq × Store) :=
  fun s => .ok ((lookupA k s.strings).map cellBytes, s)

/-- `INCR key`: atomic +1 on the integer reading; absent key counts as 0;
a non-integer value is rejected by the server. -/
def incrAct (k : String) : Store → Except String (Int × Store) :=
  fun s =>
    match lookupA k s.strings with
    | none => .ok (1, { s with strings := updateA k (.num 1) s.strings })
    | some c =>
      match cellInt c with
      | some n =>
        .ok (n + 1, { s with strings := updateA k (.num ((n + 1 : Int) : ℚ)) s.strings })
      | none => .error "value is not an integer or out of range"

/-- `DECR key`: atomic -1, same contract as `INCR`. -/
def decrAct (k : String) : Store → Except String (Int × Store) :=
  fun s =>
    match lookupA k s.strings with
    | none => .ok (-1, { s with strings := updateA k (.num (-1)) s.strings })
    | some c =>
      match cellInt c with
      | some n =>
        .ok (n - 1, { s with strings := updateA k (.num ((n - 1 : Int) : ℚ)) s.strings })
      | none => .error "value is not an integer or out of range"

/-- `INCRBYFLOAT key amount`: atomic addition on the numeric reading;
absent key counts as 0; a non-numeric value is rejected by the server. -/
def incrByFloatAct (k : String) (a : ℚ) : Store → Except String (ℚ × Store) :=
  fun s =>
    match lookupA k s.strings with
    | none => .ok (a, { s with strings := updateA k (.num a) s.strings })
    | some c =>
      match cellNum c with
      | some q =>
        .ok (q + a, { s with strings := updateA k (.num (q + a)) s.strings })
      | none => .error "value is not a valid float"

/-- The list stored under a key (absent and empty are indistinguishable to
every list command, matching Redis, which deletes emptied list keys). -/
def listAtS (s : Store) (k : String) : List ByteSeq :=
  (lookupA k s.lists).getD []

/-- `LPUSH key v...`: each argument is pushed at the head in turn, so the
arguments end up reversed at the front; zero values is an arity error
("wrong number of arguments"), which the server rejects. -/
def lpushAct (k : String) (vs : List ByteSeq) :
    Store → Except String (Int × Store) :=
  fun s =>
    match vs with
    | [] => .error "wrong number of arguments for \x27lpush\x27 command"
    | _ =>
      let l1 := vs.reverse ++ listAtS s k
      .ok ((l1.length : Int), { s with lists := updateA k l1 s.lists })

/-- `RPUSH key v...`: arguments appended at the tail in order; zero values
is an arity error. -/
def rpushAct (k : String) (vs : List ByteSeq) :
    Store → Except String (Int × Store) :=
  fun s =>
    match vs with
    | [] => .error "wrong number of arguments for \x27rpush\x27 command"
    | _ =>
      let l1 := listAtS s k ++ vs
      .ok ((l1.length : Int), { s with lists := updateA k l1 s.lists })

/-- `LPOP key`: remove and return the head element, `none` when the list is
absent or empty. -/
def lpopAct (k : String) : Store → Except String (Option ByteSeq × Store) :=
  fun s =>
    match listAtS s k with
    | [] => .ok (none, s)
    | h :: t => .ok (some h, { s with lists := updateA k t s.lists })

/-- `RPOP key`: remove and return the tail element. -/
def rpopAct (k : String) : Store → Except String (Option ByteSeq × Store) :=
  fun s =>
    let l := listAtS s k
    match l.getLast? with
    | none => .ok (none, s)
    | some b => .ok (some b, { s with lists := updateA k l.dropLast s.lists })

/-- Redis `LRANGE` index semantics: inclusive `[start, stop]`, negative
indices counted from the tail, out-of-range clamped, inverted range empty. -/
def rangeSlice {α : Type} (l : List α) (start stop : Int) : List α :=
  let len : Int := (l.length : Int)
  let s := if start < 0 then max (len + start) 0 else start
  let e0 := if stop < 0 then len + stop else stop
  let e := min e0 (len - 1)
  if s > e then [] else (l.drop s.toNat).take (e - s + 1).toNat

/-- `LRANGE key start stop`. -/
def lrangeAct (k : String) (start stop : Int) :
    Store → Except String (List ByteSeq × Store) :=
  fun s => .ok (rangeSlice (listAtS s k) start stop, s)

/-- `LLEN key`: 0 for an absent key. -/
def llenAct (k : String) : Store → Except String (Int × Store) :=
  fun s => .ok (((listAtS s k).length : Int), s)

/-- `EXPIRE key ttl`: sets a key timeout.  Expiration timing is outside the
model; the command's transmission is what the trace records. -/
def expireAct (k : String) (ttl : Int) : Store → Except String (Unit × Store) :=
  fun s => .ok ((), s)

/-! ### Wire decoding of read replies

Modelled from the spec: the connection supplied by the (missing)
`RedisConnectionManager` module delivers replies decoded per the spec's
read-path rule - a reply whose bytes are UTF-8 decodable arrives as text
(so `lrange` hands `json.dumps` a list of text items, spec 4.3 "serialized
ordered sequence of text"), and otherwise the raw bytes arrive unchanged
(spec 4.1 "on failure, return the raw bytes unchanged (never raises)"). -/

/-- A reply value as the tool layer receives it: Python `str` or `bytes`. -/
inductive Wire
  | ws (s : String)
  | wb (b : ByteSeq)
deriving DecidableEq

/-- Modelled from the spec: wire decoding of one reply (see section note). -/
def wireOut (b : ByteSeq) : Wire :=
  match utf8DecodeStr b with
  | some s => .ws s
  | none => .wb b

/-- Modelled from the spec: list-read replies as text per item (spec 4.3);
a non-decodable item is mapped through a total byte-to-char fallback, since
the spec states list reads always yield text. -/
def wireText (b : ByteSeq) : String :=
  (utf8DecodeStr b).getD (String.mk (b.map Char.ofNat))

/-! ### The tools (`src/tools/string.py`, `src/tools/list.py`) -/

/-- Python truthiness of the optional integer `expiration`/`expire`
argument: `None` and `0` are falsy, every other int truthy. -/
def truthyExp : Option Int → Bool
  | none => false
  | some n => n != 0

/-- The value encoding performed by `set` before its `try` block:
bytes pass through; a dict is `json.dumps`-serialized; anything else is
`str(value)`; a resulting `str` is UTF-8 encoded. -/
def setEncodedValue : PyVal → ByteSeq
  | .bytes b => b
  | .dict fs => pyEncodeStr (jsonDumps fs)
  | v => pyEncodeStr (pyStrV v)

/-- The item list a push tool passes to the client: a list argument is
encoded element-wise with dict elements `json.dumps`-serialized (the
client then UTF-8-encodes str/int/float items); the source's separate
`elif isinstance(value, dict)` / `else` branches produce the same single
encoded item. -/
def encodePushElem : PyVal → ByteSeq
  | .dict fs => pyEncodeStr (jsonDumps fs)
  | .bytes b => b
  | .str s => pyEncodeStr s
  | .int i => pyEncodeStr (toString i)
  | .float r => pyEncodeStr r

namespace RedisTools

/-- `set(key, value, expiration=None)` from `src/tools/string.py`. -/
def set (key : String) (value : PyVal) (expiration : Option Int)
    (st : RState) : Except PyExc Ret × RState :=
  let encoded := setEncodedValue value
  let msg : Ret := .rs ("Successfully set " ++ key ++
    (if truthyExp expiration then
      " with expiration " ++ toString (expiration.getD 0) ++ " seconds"
    else ""))
  let handler := fun m => Ret.rs ("Error setting key " ++ key ++ ": " ++ m)
  if truthyExp expiration then
    oneCall (.setexEv key (expiration.getD 0) encoded)
      (setexAct key (expiration.getD 0) encoded) (fun _ => msg) handler st
  else
    oneCall (.setEv key encoded) (setAct key encoded) (fun _ => msg) handler st

/-- `get(key)` from `src/tools/string.py`: `None` becomes the absent-key
sentinel; a `bytes` reply is decoded as UTF-8, with the raw bytes returned
when decoding fails; a `str` reply is returned as is. -/
def get (key : String) (st : RState) : Except PyExc Ret × RState :=
  oneCall (.getEv key) (getAct key)
    (fun reply =>
      match reply with
      | none => .rs ("Key " ++ key ++ " does not exist")
      | some b =>
        match wireOut b with
        | .ws text => .rs text
        | .wb bb =>
          match utf8DecodeStr bb with
          | some text => .rs text
          | none => .rb bb)
    (fun m => .rs ("Error retrieving key " ++ key ++ ": " ++ m)) st

/-- `incr(key)` from `src/tools/string.py`. -/
def incr (key : String) (st : RState) : Except PyExc Ret × RState :=
  oneCall (.incrEv key) (incrAct key)
    (fun n => .rs ("Key " ++ key ++ " incremented to " ++ toString n))
    (fun m => .rs ("Error incrementing key " ++ key ++ ": " ++ m)) st

/-- `decr(key)` from `src/tools/string.py`. -/
def decr (key : String) (st : RState) : Except PyExc Ret × RState :=
  oneCall (.decrEv key) (decrAct key)
    (fun n => .rs ("Key " ++ key ++ " decremented to " ++ toString n))
    (fun m => .rs ("Error decrementing key " ++ key ++ ": " ++ m)) st

/-- `incrbyfloat(key, amount)` from `src/tools/string.py` (the float amount
is modelled as an exact rational). -/
def incrbyfloat (key : String) (amount : ℚ) (st : RState) :
    Except PyExc Ret × RState :=
  oneCall (.incrByFloatEv key amount) (incrByFloatAct key amount)
    (fun q => .rs ("Key " ++ key ++ " incremented by " ++ toString amount ++
      ", new value: " ++ toString q))
    (fun m => .rs ("Error incrementing key " ++ key ++ " by float: " ++ m)) st

/-- `decrbyfloat(key, amount)` from `src/tools/string.py`: implemented as
`r.incrbyfloat(key, -amount)`. -/
def decrbyfloat (key : String) (amount : ℚ) (st : RState) :
    Except PyExc Ret × RState :=
  oneCall (.incrByFloatEv key (-amount)) (incrByFloatAct key (-amount))
    (fun q => .rs ("Key " ++ key ++ " decremented by " ++ toString amount ++
      ", new value: " ++ toString q))
    (fun m => .rs ("Error decrementing key " ++ key ++ " by float: " ++ m)) st

/-- The client arguments of `lpush`: a list argument is encoded and
reversed (`r.lpush(name, *reversed(vals))`, preserving input order
left-to-right); a single value is one argument. -/
def lpushItems : PushVal → List ByteSeq
  | .listOf vs => (vs.map encodePushElem).reverse
  | .single v => [encodePushElem v]

/-- The client arguments of `rpush`: natural order. -/
def rpushItems : PushVal → List ByteSeq
  | .listOf vs => vs.map encodePushElem
  | .single v => [encodePushElem v]

/-- `lpush(name, value, expire=None)` from `src/tools/list.py`. -/
def lpush (name : String) (value : PushVal) (expire : Option Int)
    (st : RState) : Except PyExc Ret × RState :=
  pushCall (.lpushEv name (lpushItems value)) (lpushAct name (lpushItems value))
    (truthyExp expire) (.expireEv name (expire.getD 0))
    (expireAct name (expire.getD 0))
    (.rs ("Value(s) \x27" ++ pyStrPush value ++
      "\x27 pushed to the left of list \x27" ++ name ++ "\x27."))
    (fun m => .rs ("Error pushing value(s) to list \x27" ++ name ++ "\x27: " ++ m))
    st

/-- `rpush(name, value, expire=None)` from `src/tools/list.py`. -/
def rpush (name : String) (value : PushVal) (expire : Option Int)
    (st : RState) : Except PyExc Ret × RState :=
  pushCall (.rpushEv name (rpushItems value)) (rpushAct name (rpushItems value))
    (truthyExp expire) (.expireEv name (expire.getD 0))
    (expireAct name (expire.getD 0))
    (.rs ("Value(s) \x27" ++ pyStrPush value ++
      "\x27 pushed to the right of list \x27" ++ name ++ "\x27."))
    (fun m => .rs ("Error pushing value(s) to list \x27" ++ name ++ "\x27: " ++ m))
    st

/-- The sentinel message of `lpop`/`rpop`/`lrange`. -/
def listSentinel (name : String) : String :=
  "List \x27" ++ name ++ "\x27 is empty or does not exist."

/-- `lpop(name)` from `src/tools/list.py`: `value if value else sentinel` -
Python truthiness, so both a `None` reply and an empty-text element give
the sentinel. -/
def lpop (name : String) (st : RState) : Except PyExc Ret × RState :=
  oneCall (.lpopEv name) (lpopAct name)
    (fun reply =>
      match reply with
      | none => .rs (listSentinel name)
      | some b =>
        let t := wireText b
        if t = "" then .rs (listSentinel name) else .rs t)
    (fun m => .rs ("Error popping value from list \x27" ++ name ++ "\x27: " ++ m))
    st

/-- `rpop(name)` from `src/tools/list.py`. -/
def rpop (name : String) (st : RState) : Except PyExc Ret × RState :=
  oneCall (.rpopEv name) (rpopAct name)
    (fun reply =>
      match reply with
      | none => .rs (listSentinel name)
      | some b =>
        let t := wireText b
        if t = "" then .rs (listSentinel name) else .rs t)
    (fun m => .rs ("Error popping value from list \x27" ++ name ++ "\x27: " ++ m))
    st

/-- `lrange(name, start, stop)` from `src/tools/list.py`: an empty reply
gives the sentinel, otherwise `json.dumps` of the (text) elements. -/
def lrange (name : String) (start stop : Int) (st : RState) :
    Except PyExc Ret × RState :=
  oneCall (.lrangeEv name start stop) (lrangeAct name start stop)
    (fun elems =>
      let texts := elems.map wireText
      if texts = [] then .rs (listSentinel name)
      else .rs (jsonDumpsV (.jarr (texts.map .jstr))))
    (fun m => .rs ("Error retrieving values from list \x27" ++ name ++
      "\x27: " ++ m))
    st

/-- `llen(name)` from `src/tools/list.py`: the integer length, or the
translated error string. -/
def llen (name : String) (st : RState) : Except PyExc Ret × RState :=
  oneCall (.llenEv name) (llenAct name) (fun n => .ri n)
    (fun m => .rs ("Error retrieving length of list \x27" ++ name ++
      "\x27: " ++ m))
    st

end RedisTools

/-! ### Machinery lemmas -/

/-- Whether a tool call returned normally (no Python exception escaped). -/
def retOk (p : Except PyExc Ret × RState) : Bool :=
  match p.1 with
  | .ok _ => true
  | .error _ => false

theorem runPrim_shape {α : Type} (ev : Event)
    (act : Store → Except String (α × Store)) (st : RState) :
    (∃ a s1, runPrim ev act st = (Except.ok a, s1)) ∨
    (∃ m s1, runPrim ev act st = (Except.error (PyExc.redisError m), s1)) := by
  unfold runPrim
  dsimp only
  split
  · exact Or.inr ⟨_, _, rfl⟩
  · split
    · exact Or.inl ⟨_, _, rfl⟩
    · exact Or.inr ⟨_, _, rfl⟩
  · split
    · exact Or.inl ⟨_, _, rfl⟩
    · exact Or.inr ⟨_, _, rfl⟩

theorem runPrim_trace {α : Type} (ev : Event)
    (act : Store → Except String (α × Store)) (st : RState) :
    (runPrim ev act st).2.trace = st.trace ++ [ev] := by
  unfold runPrim
  dsimp only
  split
  · rfl
  · split <;> rfl
  · split <;> rfl

theorem runPrim_fault {α : Type} (ev : Event)
    (act : Store → Except String (α × Store)) (st : RState)
    (m : String) (rest : List (Option String))
    (hf : st.faults = some m :: rest) :
    runPrim ev act st =
      (Except.error (PyExc.redisError m),
        ⟨st.store, rest, st.trace ++ [ev]⟩) := by
  unfold runPrim
  dsimp only
  rw [hf]

theorem runPrim_nofault_ok {α : Type} (ev : Event)
    (act : Store → Except String (α × Store)) (st : RState)
    (a : α) (s1 : Store) (hf : st.faults = [])
    (ha : act st.store = .ok (a, s1)) :
    runPrim ev act st = (Except.ok a, ⟨s1, [], st.trace ++ [ev]⟩) := by
  unfold runPrim
  dsimp only
  rw [hf, ha]

theorem runPrim_nofault_err {α : Type} (ev : Event)
    (act : Store → Except String (α × Store)) (st : RState)
    (m : String) (hf : st.faults = []) (ha : act st.store = .error m) :
    runPrim ev act st =
      (Except.error (PyExc.redisError m),
        ⟨st.store, [], st.trace ++ [ev]⟩) := by
  unfold runPrim
  dsimp only
  rw [hf, ha]

theorem oneCall_retOk {α : Type} (ev : Event)
    (act : Store → Except String (α × Store)) (onOk : α → Ret)
    (handler : String → Ret) (st : RState) :
    retOk (oneCall ev act onOk handler st) = true := by
  unfold oneCall catchRedis
  rcases runPrim_shape ev act st with ⟨a, s1, h⟩ | ⟨m, s1, h⟩ <;>
    simp [h, retOk]

theorem oneCall_trace {α : Type} (ev : Event)
    (act : Store → Except String (α × Store)) (onOk : α → Ret)
    (handler : String → Ret) (st : RState) :
    (oneCall ev act onOk handler st).2.trace = st.trace ++ [ev] := by
  have ht := runPrim_trace ev act st
  simp only [oneCall, catchRedis]
  rcases runPrim_shape ev act st with ⟨a, s1, h⟩ | ⟨m, s1, h⟩ <;>
    rw [h] at ht <;> simp [h] <;> exact ht

theorem oneCall_state {α : Type} (ev : Event)
    (act : Store → Except String (α × Store)) (onOk1 onOk2 : α → Ret)
    (h1 h2 : String → Ret) (st : RState) :
    (oneCall ev act onOk1 h1 st).2 = (oneCall ev act onOk2 h2 st).2 := by
  unfold oneCall catchRedis
  rcases runPrim_shape ev act st with ⟨a, s1, h⟩ | ⟨m, s1, h⟩ <;> simp [h]

theorem oneCall_fault {α : Type} (ev : Event)
    (act : Store → Except String (α × Store)) (onOk : α → Ret)
    (handler : String → Ret) (st : RState) (m : String)
    (rest : List (Option String)) (hf : st.faults = some m :: rest) :
    oneCall ev act onOk handler st =
      (Except.ok (handler m), ⟨st.store, rest, st.trace ++ [ev]⟩) := by
  simp only [oneCall, catchRedis]
  rw [runPrim_fault ev act st m rest hf]

theorem oneCall_nofault_ok {α : Type} (ev : Event)
    (act : Store → Except String (α × Store)) (onOk : α → Ret)
    (handler : String → Ret) (st : RState) (a : α) (s1 : Store)
    (hf : st.faults = []) (ha : act st.store = .ok (a, s1)) :
    oneCall ev act onOk handler st =
      (Except.ok (onOk a), ⟨s1, [], st.trace ++ [ev]⟩) := by
  simp only [oneCall, catchRedis]
  rw [runPrim_nofault_ok ev act st a s1 hf ha]

theorem oneCall_nofault_err {α : Type} (ev : Event)
    (act : Store → Except String (α × Store)) (onOk : α → Ret)
    (handler : String → Ret) (st : RState) (m : String)
    (hf : st.faults = []) (ha : act st.store = .error m) :
    oneCall ev act onOk handler st =
      (Except.ok (handler m), ⟨st.store, [], st.trace ++ [ev]⟩) := by
  simp only [oneCall, catchRedis]
  rw [runPrim_nofault_err ev act st m hf ha]

theorem pushCall_retOk (ev : Event) (act : Store → Except String (Int × Store))
    (d : Bool) (ev2 : Event) (act2 : Store → Except String (Unit × Store))
    (okRet : Ret) (handler : String → Ret) (st : RState) :
    retOk (pushCall ev act d ev2 act2 okRet handler st) = true := by
  simp only [pushCall, catchRedis]
  rcases runPrim_shape ev act st with ⟨a, s1, h⟩ | ⟨m, s1, h⟩
  · rcases runPrim_shape ev2 act2 s1 with ⟨b, s2, h2⟩ | ⟨m2, s2, h2⟩ <;>
      cases d <;> simp [h, h2, retOk]
  · simp [h, retOk]

theorem pushCall_trace_noexp (ev : Event)
    (act : Store → Except String (Int × Store)) (ev2 : Event)
    (act2 : Store → Except String (Unit × Store)) (okRet : Ret)
    (handler : String → Ret) (st : RState) :
    (pushCall ev act false ev2 act2 okRet handler st).2.trace =
      st.trace ++ [ev] := by
  have ht := runPrim_trace ev act st
  simp only [pushCall, catchRedis]
  rcases runPrim_shape ev act st with ⟨a, s1, h⟩ | ⟨m, s1, h⟩ <;>
    rw [h] at ht <;> simp [h] <;> exact ht

theorem pushCall_noexp_nofault_ok (ev : Event)
    (act : Store → Except String (Int × Store)) (ev2 : Event)
    (act2 : Store → Except String (Unit × Store)) (okRet : Ret)
    (handler : String → Ret) (st : RState) (a : Int) (s1 : Store)
    (hf : st.faults = []) (ha : act st.store = .ok (a, s1)) :
    pushCall ev act false ev2 act2 okRet handler st =
      (Except.ok okRet, ⟨s1, [], st.trace ++ [ev]⟩) := by
  simp only [pushCall, catchRedis]
  rw [runPrim_nofault_ok ev act st a s1 hf ha]
  simp

theorem pushCall_noexp_nofault_err (ev : Event)
    (act : Store → Except String (Int × Store)) (ev2 : Event)
    (act2 : Store → Except String (Unit × Store)) (okRet : Ret)
    (handler : String → Ret) (st : RState) (m : String)
    (hf : st.faults = []) (ha : act st.store = .error m) :
    pushCall ev act false ev2 act2 okRet handler st =
      (Except.ok (handler m), ⟨st.store, [], st.trace ++ [ev]⟩) := by
  simp only [pushCall, catchRedis]
  rw [runPrim_nofault_err ev act st m hf ha]

theorem pushCall_result_shape (ev : Event)
    (act : Store → Except String (Int × Store)) (d : Bool) (ev2 : Event)
    (act2 : Store → Except String (Unit × Store)) (okRet : Ret)
    (handler : String → Ret) (st : RState) :
    (pushCall ev act d ev2 act2 okRet handler st).1 = Except.ok okRet ∨
    ∃ m, (pushCall ev act d ev2 act2 okRet handler st).1 =
      Except.ok (handler m) := by
  simp only [pushCall, catchRedis]
  rcases runPrim_shape ev act st with ⟨a, s1, h⟩ | ⟨m, s1, h⟩
  · rcases runPrim_shape ev2 act2 s1 with ⟨b, s2, h2⟩ | ⟨m2, s2, h2⟩ <;>
      cases d <;> simp [h, h2]
  · simp [h]

theorem lookupA_updateA_self {α : Type} (k : String) (v : α)
    (l : List (String × α)) : lookupA k (updateA k v l) = some v := by
  induction l with
  | nil => simp [updateA, lookupA]
  | cons p t ih =>
    rcases p with ⟨k1, v1⟩
    by_cases h : k = k1 <;> simp [updateA, lookupA, h, ih]

theorem rangeSlice_all {α : Type} (l : List α) :
    rangeSlice l 0 (-1) = l := by
  unfold rangeSlice
  rcases l with _ | ⟨a, t⟩ <;> norm_num

/-- Python UTF-8 decoding inverts encoding, at the wire-text level. -/
theorem wireText_encode (s : String) : wireText (pyEncodeStr s) = s := by
  unfold wireText
  rw [utf8DecodeStr_encode]
  rfl

/-! ### Tool-level evaluation lemmas -/

/-- The store state with no keys and no scheduled faults. -/
def emptyState : RState := ⟨⟨[], []⟩, [], []⟩

/-- What `get` makes of a stored byte string: the UTF-8 text when decodable,
the raw bytes otherwise. -/
def getReply (b : ByteSeq) : Ret :=
  match utf8DecodeStr b with
  | some t => .rs t
  | none => .rb b

/-- The numeric reading of the string cell stored at a key. -/
def cellNumAt (st : RState) (k : String) : Option ℚ :=
  (lookupA k st.store.strings).bind cellNum

theorem set_none_nofault (k : String) (v : PyVal) (st : RState)
    (hf : st.faults = []) :
    RedisTools.set k v none st =
      (Except.ok (.rs ("Successfully set " ++ k)),
        ⟨⟨updateA k (.bytes (setEncodedValue v)) st.store.strings,
          st.store.lists⟩, [],
          st.trace ++ [.setEv k (setEncodedValue v)]⟩) := by
  unfold RedisTools.set
  rw [show truthyExp none = false from rfl]
  simp only [Bool.false_eq_true, if_false]
  rw [oneCall_nofault_ok _ _ _ _ _ ()
    ⟨updateA k (.bytes (setEncodedValue v)) st.store.strings, st.store.lists⟩
    hf rfl]
  rw [String.append_empty]

theorem get_nofault_absent (k : String) (st : RState) (hf : st.faults = [])
    (hs : lookupA k st.store.strings = none) :
    RedisTools.get k st =
      (Except.ok (.rs ("Key " ++ k ++ " does not exist")),
        ⟨st.store, [], st.trace ++ [.getEv k]⟩) := by
  unfold RedisTools.get
  rw [oneCall_nofault_ok _ _ _ _ _ none st.store hf
    (by unfold getAct; rw [hs]; rfl)]

theorem get_nofault_found (k : String) (st : RState) (c : Cell)
    (hf : st.faults = []) (hs : lookupA k st.store.strings = some c) :
    RedisTools.get k st =
      (Except.ok (getReply (cellBytes c)),
        ⟨st.store, [], st.trace ++ [.getEv k]⟩) := by
  unfold RedisTools.get
  rw [oneCall_nofault_ok _ _ _ _ _ (some (cellBytes c)) st.store hf
    (by unfold getAct; rw [hs]; rfl)]
  rcases hd : utf8DecodeStr (cellBytes c) with _ | t <;>
    simp [wireOut, getReply, hd]

theorem lpush_nofault_cons (k : String) (pv : PushVal) (st : RState)
    (x : ByteSeq) (xs : List ByteSeq) (hf : st.faults = [])
    (hv : RedisTools.lpushItems pv = x :: xs) :
    RedisTools.lpush k pv none st =
      (Except.ok (.rs ("Value(s) \x27" ++ pyStrPush pv ++
          "\x27 pushed to the left of list \x27" ++ k ++ "\x27.")),
        ⟨⟨st.store.strings,
          updateA k ((RedisTools.lpushItems pv).reverse ++ listAtS st.store k)
            st.store.lists⟩, [],
          st.trace ++ [.lpushEv k (RedisTools.lpushItems pv)]⟩) := by
  unfold RedisTools.lpush
  rw [show truthyExp none = false from rfl]
  rw [pushCall_noexp_nofault_ok _ _ _ _ _ _ st
    ((((RedisTools.lpushItems pv).reverse ++ listAtS st.store k).length : Int))
    ⟨st.store.strings,
      updateA k ((RedisTools.lpushItems pv).reverse ++ listAtS st.store k)
        st.store.lists⟩ hf (by rw [hv]; rfl)]

theorem rpush_nofault_cons (k : String) (pv : PushVal) (st : RState)
    (x : ByteSeq) (xs : List ByteSeq) (hf : st.faults = [])
    (hv : RedisTools.rpushItems pv = x :: xs) :
    RedisTools.rpush k pv none st =
      (Except.ok (.rs ("Value(s) \x27" ++ pyStrPush pv ++
          "\x27 pushed to the right of list \x27" ++ k ++ "\x27.")),
        ⟨⟨st.store.strings,
          updateA k (listAtS st.store k ++ RedisTools.rpushItems pv)
            st.store.lists⟩, [],
          st.trace ++ [.rpushEv k (RedisTools.rpushItems pv)]⟩) := by
  unfold RedisTools.rpush
  rw [show truthyExp none = false from rfl]
  rw [pushCall_noexp_nofault_ok _ _ _ _ _ _ st
    (((listAtS st.store k ++ RedisTools.rpushItems pv).length : Int))
    ⟨st.store.strings,
      updateA k (listAtS st.store k ++ RedisTools.rpushItems pv)
        st.store.lists⟩ hf (by rw [hv]; rfl)]

theorem lpop_nofault_nil (k : String) (st : RState) (hf : st.faults = [])
    (hl : listAtS st.store k = []) :
    RedisTools.lpop k st =
      (Except.ok (.rs (RedisTools.listSentinel k)),
        ⟨st.store, [], st.trace ++ [.lpopEv k]⟩) := by
  unfold RedisTools.lpop
  rw [oneCall_nofault_ok _ _ _ _ _ none st.store hf
    (by unfold lpopAct; rw [hl])]

theorem lpop_nofault_cons (k : String) (st : RState) (b : ByteSeq)
    (rest : List ByteSeq) (hf : st.faults = [])
    (hl : listAtS st.store k = b :: rest) :
    RedisTools.lpop k st =
      (Except.ok (if wireText b = "" then .rs (RedisTools.listSentinel k)
          else .rs (wireText b)),
        ⟨⟨st.store.strings, updateA k rest st.store.lists⟩, [],
          st.trace ++ [.lpopEv k]⟩) := by
  unfold RedisTools.lpop
  rw [oneCall_nofault_ok _ _ _ _ _ (some b)
    ⟨st.store.strings, updateA k rest st.store.lists⟩ hf
    (by unfold lpopAct; rw [hl])]

theorem rpop_nofault_nil (k : String) (st : RState) (hf : st.faults = [])
    (hl : listAtS st.store k = []) :
    RedisTools.rpop k st =
      (Except.ok (.rs (RedisTools.listSentinel k)),
        ⟨st.store, [], st.trace ++ [.rpopEv k]⟩) := by
  unfold RedisTools.rpop
  rw [oneCall_nofault_ok _ _ _ _ _ none st.store hf
    (by unfold rpopAct; rw [hl]; rfl)]

theorem rpop_nofault_concat (k : String) (st : RState) (l : List ByteSeq)
    (b : ByteSeq) (hf : st.faults = [])
    (hl : listAtS st.store k = l ++ [b]) :
    RedisTools.rpop k st =
      (Except.ok (if wireText b = "" then .rs (RedisTools.listSentinel k)
          else .rs (wireText b)),
        ⟨⟨st.store.strings, updateA k l st.store.lists⟩, [],
          st.trace ++ [.rpopEv k]⟩) := by
  unfold RedisTools.rpop
  rw [oneCall_nofault_ok _ _ _ _ _ (some b)
    ⟨st.store.strings, updateA k l st.store.lists⟩ hf
    (by unfold rpopAct
        rw [hl]
        simp [List.getLast?_concat, List.dropLast_concat])]

theorem lrange_nofault (k : String) (start stop : Int) (st : RState)
    (hf : st.faults = []) :
    RedisTools.lrange k start stop st =
      (Except.ok
        (if (rangeSlice (listAtS st.store k) start stop).map wireText = []
          then .rs (RedisTools.listSentinel k)
          else .rs (jsonDumpsV (.jarr
            (((rangeSlice (listAtS st.store k) start stop).map wireText).map
              .jstr)))),
        ⟨st.store, [], st.trace ++ [.lrangeEv k start stop]⟩) := by
  unfold RedisTools.lrange
  rw [oneCall_nofault_ok _ _ _ _ _
    (rangeSlice (listAtS st.store k) start stop) st.store hf rfl]

theorem set_falsy_nofault (k : String) (v : PyVal) (e : Option Int)
    (st : RState) (hf : st.faults = []) (he : truthyExp e = false) :
    RedisTools.set k v e st =
      (Except.ok (.rs ("Successfully set " ++ k)),
        ⟨⟨updateA k (.bytes (setEncodedValue v)) st.store.strings,
          st.store.lists⟩, [],
          st.trace ++ [.setEv k (setEncodedValue v)]⟩) := by
  unfold RedisTools.set
  rw [he]
  simp only [Bool.false_eq_true, if_false]
  rw [oneCall_nofault_ok _ _ _ _ _ ()
    ⟨updateA k (.bytes (setEncodedValue v)) st.store.strings, st.store.lists⟩
    hf rfl]
  rw [String.append_empty]

theorem set_truthy_trace (k : String) (v : PyVal) (n : Int) (st : RState)
    (hn : truthyExp (some n) = true) :
    (RedisTools.set k v (some n) st).2.trace =
      st.trace ++ [.setexEv k n (setEncodedValue v)] := by
  unfold RedisTools.set
  rw [hn]
  simp only [if_true, Option.getD_some]
  exact oneCall_trace _ _ _ _ _

theorem set_falsy_trace (k : String) (v : PyVal) (e : Option Int)
    (st : RState) (he : truthyExp e = false) :
    (RedisTools.set k v e st).2.trace =
      st.trace ++ [.setEv k (setEncodedValue v)] := by
  unfold RedisTools.set
  rw [he]
  simp only [Bool.false_eq_true, if_false]
  exact oneCall_trace _ _ _ _ _

theorem set_truthy_nofault_pos (k : String) (v : PyVal) (n : Int)
    (st : RState) (hf : st.faults = []) (hn : truthyExp (some n) = true)
    (hp : 0 < n) :
    (RedisTools.set k v (some n) st).1 =
      Except.ok (.rs ("Successfully set " ++ k ++ " with expiration " ++
        toString n ++ " seconds")) := by
  unfold RedisTools.set
  rw [hn]
  simp only [if_true, Option.getD_some]
  rw [oneCall_nofault_ok _ _ _ _ _ ()
    ⟨updateA k (.bytes (setEncodedValue v)) st.store.strings, st.store.lists⟩
    hf (by unfold setexAct; rw [if_neg (by omega)])]
  simp [String.append_assoc]

theorem set_truthy_nofault_neg (k : String) (v : PyVal) (n : Int)
    (st : RState) (hf : st.faults = []) (hn : truthyExp (some n) = true)
    (hp : n ≤ 0) :
    (RedisTools.set k v (some n) st).1 =
      Except.ok (.rs ("Error setting key " ++ k ++
        ": invalid expire time in \x27setex\x27 command")) := by
  unfold RedisTools.set
  rw [hn]
  simp only [if_true, Option.getD_some]
  rw [oneCall_nofault_err _ _ _ _ _
    ("invalid expire time in \x27setex\x27 command") hf
    (by unfold setexAct; rw [if_pos hp])]
  simp only [String.append_assoc]
  rw [show (": " ++ "invalid expire time in \x27setex\x27 command" : String) =
    ": invalid expire time in \x27setex\x27 command" from rfl]

theorem incrbyfloat_state_found (k : String) (a : ℚ) (st : RState)
    (c : Cell) (q : ℚ) (hf : st.faults = [])
    (hc : lookupA k st.store.strings = some c) (hq : cellNum c = some q) :
    (RedisTools.incrbyfloat k a st).2 =
      ⟨⟨updateA k (.num (q + a)) st.store.strings, st.store.lists⟩, [],
        st.trace ++ [.incrByFloatEv k a]⟩ := by
  unfold RedisTools.incrbyfloat
  rw [oneCall_nofault_ok _ _ _ _ _ (q + a)
    ⟨updateA k (.num (q + a)) st.store.strings, st.store.lists⟩ hf
    (by unfold incrByFloatAct
        rw [hc]
        dsimp only
        rw [hq])]

theorem runPrim_popnone_ok {α : Type} (ev : Event)
    (act : Store → Except String (α × Store)) (st : RState) (a : α)
    (s1 : Store) (rest : List (Option String))
    (hf : st.faults = none :: rest) (ha : act st.store = .ok (a, s1)) :
    runPrim ev act st = (Except.ok a, ⟨s1, rest, st.trace ++ [ev]⟩) := by
  unfold runPrim
  dsimp only
  rw [hf, ha]

theorem runPrim_popnone_err {α : Type} (ev : Event)
    (act : Store → Except String (α × Store)) (st : RState) (m : String)
    (rest : List (Option String)) (hf : st.faults = none :: rest)
    (ha : act st.store = .error m) :
    runPrim ev act st =
      (Except.error (PyExc.redisError m),
        ⟨st.store, rest, st.trace ++ [ev]⟩) := by
  unfold runPrim
  dsimp only
  rw [hf, ha]

theorem pushCall_fault (ev : Event)
    (act : Store → Except String (Int × Store)) (d : Bool) (ev2 : Event)
    (act2 : Store → Except String (Unit × Store)) (okRet : Ret)
    (handler : String → Ret) (st : RState) (m : String)
    (rest : List (Option String)) (hf : st.faults = some m :: rest) :
    pushCall ev act d ev2 act2 okRet handler st =
      (Except.ok (handler m), ⟨st.store, rest, st.trace ++ [ev]⟩) := by
  simp only [pushCall, catchRedis]
  rw [runPrim_fault ev act st m rest hf]

theorem pushCall_allerr_result (ev : Event)
    (act : Store → Except String (Int × Store)) (d : Bool) (ev2 : Event)
    (act2 : Store → Except String (Unit × Store)) (okRet : Ret)
    (handler : String → Ret) (st : RState)
    (hact : ∀ s, ∃ m, act s = .error m) :
    ∃ m, (pushCall ev act d ev2 act2 okRet handler st).1 =
      Except.ok (handler m) := by
  rcases hfa : st.faults with _ | ⟨o, rest⟩
  · obtain ⟨m, hm⟩ := hact st.store
    refine ⟨m, ?_⟩
    simp only [pushCall, catchRedis]
    rw [runPrim_nofault_err ev act st m hfa hm]
  · rcases o with _ | msg
    · obtain ⟨m, hm⟩ := hact st.store
      refine ⟨m, ?_⟩
      simp only [pushCall, catchRedis]
      rw [runPrim_popnone_err ev act st m rest hfa hm]
    · refine ⟨msg, ?_⟩
      rw [pushCall_fault ev act d ev2 act2 okRet handler st msg rest hfa]

theorem strHead_append (x y : String) (c : Char) (cs : List Char)
    (hx : x.data = c :: cs) : (x ++ y).data.head? = some c := by
  rw [String.data_append, hx]
  rfl

theorem ne_of_strHead_ne (s t : String)
    (h : s.data.head? ≠ t.data.head?) : s ≠ t := by
  intro he
  exact h (by rw [he])

theorem getReply_encode (s : String) : getReply (pyEncodeStr s) = .rs s := by
  unfold getReply
  rw [utf8DecodeStr_encode]

theorem get_after_set (k : String) (v : PyVal) (st : RState)
    (hf : st.faults = []) :
    (RedisTools.get k (RedisTools.set k v none st).2).1 =
      Except.ok (getReply (setEncodedValue v)) := by
  have hget := get_nofault_found k
    ⟨⟨updateA k (Cell.bytes (setEncodedValue v)) st.store.strings,
      st.store.lists⟩, [], st.trace ++ [Event.setEv k (setEncodedValue v)]⟩
    (Cell.bytes (setEncodedValue v)) rfl (lookupA_updateA_self _ _ _)
  rw [set_none_nofault k v st hf]
  dsimp only
  rw [hget]
  rfl

theorem map_wireText_encode_str (ss : List String) :
    ss.map (fun s => wireText (encodePushElem (.str s))) = ss := by
  induction ss with
  | nil => rfl
  | cons s t ih => simp [encodePushElem, wireText_encode, ih]

theorem key_sentinel_ne_empty (k : String) :
    ("Key " ++ k ++ " does not exist") ≠ "" := by
  apply ne_of_strHead_ne
  rw [strHead_append ("Key " ++ k) " does not exist" 'K'
    (("ey ".data) ++ k.data) (by rw [String.data_append]; rfl)]
  intro h
  simp at h

/-! ### The claims -/

/-- Claim C1: for every public operation (set, get, incr, decr, incrbyfloat,
decrbyfloat, lpush, rpush, lpop, rpop, lrange, llen), every input and every
store behaviour (including store failures injected by the fault schedule),
the operation never lets an exception escape: every execution path returns
normally, and a store failure at the issued command is converted to the
operation's descriptive error string. -/
theorem claim_C1_no_exception_escape :
    (∀ k v e st, retOk (RedisTools.set k v e st) = true) ∧
    (∀ k st, retOk (RedisTools.get k st) = true) ∧
    (∀ k st, retOk (RedisTools.incr k st) = true) ∧
    (∀ k st, retOk (RedisTools.decr k st) = true) ∧
    (∀ k a st, retOk (RedisTools.incrbyfloat k a st) = true) ∧
    (∀ k a st, retOk (RedisTools.decrbyfloat k a st) = true) ∧
    (∀ k v e st, retOk (RedisTools.lpush k v e st) = true) ∧
    (∀ k v e st, retOk (RedisTools.rpush k v e st) = true) ∧
    (∀ k st, retOk (RedisTools.lpop k st) = true) ∧
    (∀ k st, retOk (RedisTools.rpop k st) = true) ∧
    (∀ k a b st, retOk (RedisTools.lrange k a b st) = true) ∧
    (∀ k st, retOk (RedisTools.llen k st) = true) ∧
    (∀ k v e st m rest, st.faults = some m :: rest →
      (RedisTools.set k v e st).1 =
        Except.ok (.rs ("Error setting key " ++ k ++ ": " ++ m))) ∧
    (∀ k st m rest, st.faults = some m :: rest →
      (RedisTools.get k st).1 =
        Except.ok (.rs ("Error retrieving key " ++ k ++ ": " ++ m))) ∧
    (∀ k st m rest, st.faults = some m :: rest →
      (RedisTools.incr k st).1 =
        Except.ok (.rs ("Error incrementing key " ++ k ++ ": " ++ m))) ∧
    (∀ k st m rest, st.faults = some m :: rest →
      (RedisTools.decr k st).1 =
        Except.ok (.rs ("Error decrementing key " ++ k ++ ": " ++ m))) ∧
    (∀ k a st m rest, st.faults = some m :: rest →
      (RedisTools.incrbyfloat k a st).1 =
        Except.ok (.rs ("Error incrementing key " ++ k ++ " by float: " ++ m))) ∧
    (∀ k a st m rest, st.faults = some m :: rest →
      (RedisTools.decrbyfloat k a st).1 =
        Except.ok (.rs ("Error decrementing key " ++ k ++ " by float: " ++ m))) ∧
    (∀ k v e st m rest, st.faults = some m :: rest →
      (RedisTools.lpush k v e st).1 =
        Except.ok (.rs ("Error pushing value(s) to list \x27" ++ k ++
          "\x27: " ++ m))) ∧
    (∀ k v e st m rest, st.faults = some m :: rest →
      (RedisTools.rpush k v e st).1 =
        Except.ok (.rs ("Error pushing value(s) to list \x27" ++ k ++
          "\x27: " ++ m))) ∧
    (∀ k st m rest, st.faults = some m :: rest →
      (RedisTools.lpop k st).1 =
        Except.ok (.rs ("Error popping value from list \x27" ++ k ++
          "\x27: " ++ m))) ∧
    (∀ k st m rest, st.faults = some m :: rest →
      (RedisTools.rpop k st).1 =
        Except.ok (.rs ("Error popping value from list \x27" ++ k ++
          "\x27: " ++ m))) ∧
    (∀ k a b st m rest, st.faults = some m :: rest →
      (RedisTools.lrange k a b st).1 =
        Except.ok (.rs ("Error retrieving values from list \x27" ++ k ++
          "\x27: " ++ m))) ∧
    (∀ k st m rest, st.faults = some m :: rest →
      (RedisTools.llen k st).1 =
        Except.ok (.rs ("Error retrieving length of list \x27" ++ k ++
          "\x27: " ++ m))) := by
  refine ⟨?_, ?_, ?_, ?_, ?_, ?_, ?_, ?_, ?_, ?_, ?_, ?_,
    ?_, ?_, ?_, ?_, ?_, ?_, ?_, ?_, ?_, ?_, ?_, ?_⟩
  · intro k v e st
    unfold RedisTools.set
    cases he : truthyExp e <;>
      simp only [he, Bool.false_eq_true, if_false, if_true] <;>
      exact oneCall_retOk _ _ _ _ _
  · intro k st; exact oneCall_retOk _ _ _ _ _
  · intro k st; exact oneCall_retOk _ _ _ _ _
  · intro k st; exact oneCall_retOk _ _ _ _ _
  · intro k a st; exact oneCall_retOk _ _ _ _ _
  · intro k a st; exact oneCall_retOk _ _ _ _ _
  · intro k v e st; exact pushCall_retOk _ _ _ _ _ _ _ _
  · intro k v e st; exact pushCall_retOk _ _ _ _ _ _ _ _
  · intro k st; exact oneCall_retOk _ _ _ _ _
  · intro k st; exact oneCall_retOk _ _ _ _ _
  · intro k a b st; exact oneCall_retOk _ _ _ _ _
  · intro k st; exact oneCall_retOk _ _ _ _ _
  · intro k v e st m rest hfm
    unfold RedisTools.set
    cases he : truthyExp e <;>
      simp only [he, Bool.false_eq_true, if_false, if_true] <;>
      rw [oneCall_fault _ _ _ _ _ m rest hfm]
  · intro k st m rest hfm
    unfold RedisTools.get
    rw [oneCall_fault _ _ _ _ _ m rest hfm]
  · intro k st m rest hfm
    unfold RedisTools.incr
    rw [oneCall_fault _ _ _ _ _ m rest hfm]
  · intro k st m rest hfm
    unfold RedisTools.decr
    rw [oneCall_fault _ _ _ _ _ m rest hfm]
  · intro k a st m rest hfm
    unfold RedisTools.incrbyfloat
    rw [oneCall_fault _ _ _ _ _ m rest hfm]
  · intro k a st m rest hfm
    unfold RedisTools.decrbyfloat
    rw [oneCall_fault _ _ _ _ _ m rest hfm]
  · intro k v e st m rest hfm
    unfold RedisTools.lpush
    rw [pushCall_fault _ _ _ _ _ _ _ _ m rest hfm]
  · intro k v e st m rest hfm
    unfold RedisTools.rpush
    rw [pushCall_fault _ _ _ _ _ _ _ _ m rest hfm]
  · intro k st m rest hfm
    unfold RedisTools.lpop
    rw [oneCall_fault _ _ _ _ _ m rest hfm]
  · intro k st m rest hfm
    unfold RedisTools.rpop
    rw [oneCall_fault _ _ _ _ _ m rest hfm]
  · intro k a b st m rest hfm
    unfold RedisTools.lrange
    rw [oneCall_fault _ _ _ _ _ m rest hfm]
  · intro k st m rest hfm
    unfold RedisTools.llen
    rw [oneCall_fault _ _ _ _ _ m rest hfm]

/-- A state whose next store command fails with an injected `RedisError`. -/
def faultState : RState := ⟨⟨[], []⟩, [some "boom"], []⟩

/-- Claim C1 witness: at a concrete state whose store command fails, `set`
returns the translated error string. -/
theorem claim_C1_witness :
    faultState.faults = some "boom" :: [] ∧
    (RedisTools.set "k" (.str "v") none faultState).1 =
      Except.ok (.rs "Error setting key k: boom") := by
  refine ⟨rfl, ?_⟩
  have h := claim_C1_no_exception_escape.2.2.2.2.2.2.2.2.2.2.2.2.1
    "k" (.str "v") none faultState "boom" [] rfl
  exact h

/-- Claim C3: after `set(k, v)` with no store failure, `get(k)` returns the
UTF-8 textual form of every scalar v (text as itself, int/float as their
repr text), returns raw bytes unchanged exactly when v is binary and not
UTF-8 decodable (decodable binary comes back as its text), and returns the
canonical JSON serialization text for a dict value, not the structure. -/
theorem claim_C3_roundtrip (k : String) (st : RState) (hf : st.faults = []) :
    (∀ s : String,
      (RedisTools.get k (RedisTools.set k (.str s) none st).2).1 =
        Except.ok (.rs s)) ∧
    (∀ i : Int,
      (RedisTools.get k (RedisTools.set k (.int i) none st).2).1 =
        Except.ok (.rs (toString i))) ∧
    (∀ r : String,
      (RedisTools.get k (RedisTools.set k (.float r) none st).2).1 =
        Except.ok (.rs r)) ∧
    (∀ (b : ByteSeq) (t : String), utf8DecodeStr b = some t →
      (RedisTools.get k (RedisTools.set k (.bytes b) none st).2).1 =
        Except.ok (.rs t)) ∧
    (∀ b : ByteSeq, utf8DecodeStr b = none →
      (RedisTools.get k (RedisTools.set k (.bytes b) none st).2).1 =
        Except.ok (.rb b)) ∧
    (∀ fs : List (String × JVal),
      (RedisTools.get k (RedisTools.set k (.dict fs) none st).2).1 =
        Except.ok (.rs (jsonDumps fs))) := by
  refine ⟨?_, ?_, ?_, ?_, ?_, ?_⟩
  · intro s
    rw [get_after_set k (.str s) st hf]
    rw [show setEncodedValue (.str s) = pyEncodeStr s from rfl,
      getReply_encode]
  · intro i
    rw [get_after_set k (.int i) st hf]
    rw [show setEncodedValue (.int i) = pyEncodeStr (toString i) from rfl,
      getReply_encode]
  · intro r
    rw [get_after_set k (.float r) st hf]
    rw [show setEncodedValue (.float r) = pyEncodeStr r from rfl,
      getReply_encode]
  · intro b t hd
    rw [get_after_set k (.bytes b) st hf]
    rw [show setEncodedValue (.bytes b) = b from rfl]
    unfold getReply
    rw [hd]
  · intro b hd
    rw [get_after_set k (.bytes b) st hf]
    rw [show setEncodedValue (.bytes b) = b from rfl]
    unfold getReply
    rw [hd]
  · intro fs
    rw [get_after_set k (.dict fs) st hf]
    rw [show setEncodedValue (.dict fs) = pyEncodeStr (jsonDumps fs) from rfl,
      getReply_encode]

/-- Claim C3 witness. -/
theorem claim_C3_witness :
    emptyState.faults = [] ∧
    (RedisTools.get "x" (RedisTools.set "x" (.str "hi") none emptyState).2).1 =
      Except.ok (.rs "hi") :=
  ⟨rfl, (claim_C3_roundtrip "x" emptyState rfl).1 "hi"⟩

/-- Claim C4: with no store failure, `get(k)` returns the "does not exist"
sentinel when the key is absent; a stored empty value comes back as empty
text, which differs from the sentinel; and for a present key the result is
the sentinel string only if the stored value itself reads back as that
exact text, so absence is never silently returned as empty text. -/
theorem claim_C4_absent_sentinel (k : String) (st : RState)
    (hf : st.faults = []) :
    (lookupA k st.store.strings = none →
      (RedisTools.get k st).1 =
        Except.ok (.rs ("Key " ++ k ++ " does not exist"))) ∧
    (lookupA k st.store.strings = some (.bytes []) →
      (RedisTools.get k st).1 = Except.ok (.rs "") ∧
      ("Key " ++ k ++ " does not exist") ≠ "") ∧
    (∀ c, lookupA k st.store.strings = some c →
      getReply (cellBytes c) ≠ .rs ("Key " ++ k ++ " does not exist") →
      (RedisTools.get k st).1 ≠
        Except.ok (.rs ("Key " ++ k ++ " does not exist"))) := by
  refine ⟨?_, ?_, ?_⟩
  · intro hs
    rw [get_nofault_absent k st hf hs]
  · intro hs
    refine ⟨?_, key_sentinel_ne_empty k⟩
    rw [get_nofault_found k st (.bytes []) hf hs]
    rfl
  · intro c hs hne
    rw [get_nofault_found k st c hf hs]
    intro h
    apply hne
    exact (Except.ok.inj h)

/-- Claim C4 witness. -/
theorem claim_C4_witness :
    emptyState.faults = [] ∧
    lookupA "missing" emptyState.store.strings = none ∧
    (RedisTools.get "missing" emptyState).1 =
      Except.ok (.rs "Key missing does not exist") := by
  refine ⟨rfl, rfl, ?_⟩
  have h := (claim_C4_absent_sentinel "missing" emptyState rfl).1 rfl
  exact h

/-- Claim C7: for every stored byte sequence read by `get` with no store
failure, the read path attempts UTF-8 decoding, returns the decoded text on
success and the raw bytes unchanged on failure, and never raises: the
result is exactly the decode-or-raw value, with no re-interpretation of the
text into a structured object. -/
theorem claim_C7_decode_rule (k : String) (st : RState) (b : ByteSeq)
    (hf : st.faults = [])
    (hs : lookupA k st.store.strings = some (.bytes b)) :
    (RedisTools.get k st).1 = Except.ok (getReply b) ∧
    (∀ t, utf8DecodeStr b = some t → getReply b = .rs t) ∧
    (utf8DecodeStr b = none → getReply b = .rb b) ∧
    retOk (RedisTools.get k st) = true := by
  refine ⟨?_, ?_, ?_, oneCall_retOk _ _ _ _ _⟩
  · rw [get_nofault_found k st (.bytes b) hf hs]
    rfl
  · intro t hd
    unfold getReply
    rw [hd]
  · intro hd
    unfold getReply
    rw [hd]

/-- A state holding one non-UTF-8 byte under key `b`. -/
def binState : RState := ⟨⟨[("b", Cell.bytes [255])], []⟩, [], []⟩

/-- Claim C7 witness. -/
theorem claim_C7_witness :
    binState.faults = [] ∧
    lookupA "b" binState.store.strings = some (.bytes [255]) ∧
    (RedisTools.get "b" binState).1 = Except.ok (.rb [255]) := by
  refine ⟨rfl, rfl, ?_⟩
  have h := (claim_C7_decode_rule "b" binState [255] rfl rfl).1
  exact h

/-- Claim C8: every write operation (set, lpush, rpush) serializes a
structured-object (dict) value to its canonical JSON text - alone or as a
list element - before transmission: the encoding functions map a dict to
the UTF-8 bytes of its `json.dumps` text, and the transmitted command
payload recorded in the trace carries exactly those serialized bytes, so a
structured object is never sent to the store in native form. -/
theorem claim_C8_dict_serialized :
    (∀ fs, setEncodedValue (.dict fs) = pyEncodeStr (jsonDumps fs)) ∧
    (∀ fs, encodePushElem (.dict fs) = pyEncodeStr (jsonDumps fs)) ∧
    (∀ k fs st, (RedisTools.set k (.dict fs) none st).2.trace =
      st.trace ++ [Event.setEv k (pyEncodeStr (jsonDumps fs))]) ∧
    (∀ k vs st, (RedisTools.lpush k (.listOf vs) none st).2.trace =
      st.trace ++ [Event.lpushEv k ((vs.map encodePushElem).reverse)]) ∧
    (∀ k vs st, (RedisTools.rpush k (.listOf vs) none st).2.trace =
      st.trace ++ [Event.rpushEv k (vs.map encodePushElem)]) ∧
    (∀ k fs st, (RedisTools.lpush k (.single (.dict fs)) none st).2.trace =
      st.trace ++ [Event.lpushEv k [pyEncodeStr (jsonDumps fs)]]) ∧
    (∀ k fs st, (RedisTools.rpush k (.single (.dict fs)) none st).2.trace =
      st.trace ++ [Event.rpushEv k [pyEncodeStr (jsonDumps fs)]]) := by
  refine ⟨fun fs => rfl, fun fs => rfl, ?_, ?_, ?_, ?_, ?_⟩
  · intro k fs st
    exact set_falsy_trace k (.dict fs) none st rfl
  · intro k vs st
    unfold RedisTools.lpush
    rw [show truthyExp none = false from rfl]
    exact pushCall_trace_noexp _ _ _ _ _ _ _
  · intro k vs st
    unfold RedisTools.rpush
    rw [show truthyExp none = false from rfl]
    exact pushCall_trace_noexp _ _ _ _ _ _ _
  · intro k fs st
    unfold RedisTools.lpush
    rw [show truthyExp none = false from rfl]
    exact pushCall_trace_noexp _ _ _ _ _ _ _
  · intro k fs st
    unfold RedisTools.rpush
    rw [show truthyExp none = false from rfl]
    exact pushCall_trace_noexp _ _ _ _ _ _ _

/-- Claim C9: `decrbyfloat(k, a)` issues exactly the store operation of
`incrbyfloat` with the amount's sign inverted (the resulting states,
including the transmitted-command trace, coincide with those of
`incrbyfloat(k, -a)`), and for a non-negative amount with no store failure,
`incrbyfloat(k, a)` followed by `decrbyfloat(k, a)` returns the stored
numeric value to its original value (exactly, in the rational model of the
float arithmetic). -/
theorem claim_C9_decr_is_neg_incr (k : String) (a : ℚ) (st : RState) :
    (RedisTools.decrbyfloat k a st).2 =
      (RedisTools.incrbyfloat k (-a) st).2 ∧
    (0 ≤ a → st.faults = [] → ∀ q, cellNumAt st k = some q →
      cellNumAt
        (RedisTools.decrbyfloat k a
          (RedisTools.incrbyfloat k a st).2).2 k = some q) := by
  constructor
  · unfold RedisTools.decrbyfloat RedisTools.incrbyfloat
    exact oneCall_state _ _ _ _ _ _ _
  · intro ha hf q hq
    obtain ⟨c, hc, hcq⟩ := Option.bind_eq_some.mp hq
    have h1 := incrbyfloat_state_found k a st c q hf hc hcq
    have hstate :
        (RedisTools.decrbyfloat k a (RedisTools.incrbyfloat k a st).2).2 =
        (RedisTools.incrbyfloat k (-a)
          (RedisTools.incrbyfloat k a st).2).2 := by
      unfold RedisTools.decrbyfloat RedisTools.incrbyfloat
      exact oneCall_state _ _ _ _ _ _ _
    rw [hstate]
    rw [h1]
    have h2 := incrbyfloat_state_found k (-a)
      ⟨⟨updateA k (.num (q + a)) st.store.strings, st.store.lists⟩, [],
        st.trace ++ [.incrByFloatEv k a]⟩
      (.num (q + a)) (q + a) rfl (lookupA_updateA_self _ _ _) rfl
    rw [h2]
    unfold cellNumAt
    rw [show (⟨⟨updateA k (.num (q + a + -a))
        (updateA k (.num (q + a)) st.store.strings), st.store.lists⟩, [],
        (st.trace ++ [.incrByFloatEv k a]) ++
          [.incrByFloatEv k (-a)]⟩ : RState).store.strings =
      updateA k (.num (q + a + -a))
        (updateA k (.num (q + a)) st.store.strings) from rfl]
    rw [lookupA_updateA_self]
    rw [show q + a + -a = q from by ring]
    rfl

/-- A state holding the number 2 under key `f`. -/
def numState : RState := ⟨⟨[("f", Cell.num 2)], []⟩, [], []⟩

/-- Claim C9 witness. -/
theorem claim_C9_witness :
    (0 : ℚ) ≤ 1 ∧ numState.faults = [] ∧
    cellNumAt numState "f" = some 2 ∧
    cellNumAt
      (RedisTools.decrbyfloat "f" 1
        (RedisTools.incrbyfloat "f" 1 numState).2).2 "f" = some 2 := by
  refine ⟨by norm_num, rfl, by decide, ?_⟩
  exact (claim_C9_decr_is_neg_incr "f" 1 numState).2 (by norm_num) rfl 2
    (by decide)

/-- Claim C2: pushing an ordered list L to a key holding no list leaves the
stored list equal to the element-wise encoding of L in the caller's
left-to-right order, for both `lpush` and `rpush`; the trace shows `lpush`
transmits L reversed (head-push order-reversal compensation) and `rpush`
transmits L in natural order; a subsequent `lrange(k, 0, -1)` returns the
JSON serialization of the elements in input order, which for a list of
text values is L itself. -/
theorem claim_C2_push_order (k : String) (L : List PyVal) (st : RState)
    (hf : st.faults = []) (h0 : listAtS st.store k = []) (hne : L ≠ []) :
    listAtS (RedisTools.lpush k (.listOf L) none st).2.store k =
      L.map encodePushElem ∧
    listAtS (RedisTools.rpush k (.listOf L) none st).2.store k =
      L.map encodePushElem ∧
    (RedisTools.lpush k (.listOf L) none st).2.trace =
      st.trace ++ [Event.lpushEv k ((L.map encodePushElem).reverse)] ∧
    (RedisTools.rpush k (.listOf L) none st).2.trace =
      st.trace ++ [Event.rpushEv k (L.map encodePushElem)] ∧
    (RedisTools.lrange k 0 (-1)
        (RedisTools.lpush k (.listOf L) none st).2).1 =
      Except.ok (.rs (jsonDumpsV (.jarr
        (((L.map encodePushElem).map wireText).map JVal.jstr)))) ∧
    (RedisTools.lrange k 0 (-1)
        (RedisTools.rpush k (.listOf L) none st).2).1 =
      Except.ok (.rs (jsonDumpsV (.jarr
        (((L.map encodePushElem).map wireText).map JVal.jstr)))) ∧
    (∀ ss : List String, L = ss.map PyVal.str →
      (L.map encodePushElem).map wireText = ss) := by
  have hmapne : L.map encodePushElem ≠ [] := by
    intro h
    exact hne (List.map_eq_nil_iff.mp h)
  obtain ⟨x, xs, hx⟩ : ∃ x xs,
      RedisTools.lpushItems (.listOf L) = x :: xs := by
    rcases hr : (L.map encodePushElem).reverse with _ | ⟨x, xs⟩
    · exact absurd (by simpa using hr) hmapne
    · exact ⟨x, xs, by simpa [RedisTools.lpushItems] using hr⟩
  obtain ⟨y, ys, hy⟩ : ∃ y ys,
      RedisTools.rpushItems (.listOf L) = y :: ys := by
    rcases hr : L.map encodePushElem with _ | ⟨y, ys⟩
    · exact absurd hr hmapne
    · exact ⟨y, ys, by simpa [RedisTools.rpushItems] using hr⟩
  have hlp := lpush_nofault_cons k (.listOf L) st x xs hf hx
  have hrp := rpush_nofault_cons k (.listOf L) st y ys hf hy
  have hlitems : RedisTools.lpushItems (.listOf L) =
      (L.map encodePushElem).reverse := rfl
  have hritems : RedisTools.rpushItems (.listOf L) =
      L.map encodePushElem := rfl
  have hstoreget : listAtS
      (⟨st.store.strings, updateA k (L.map encodePushElem)
        st.store.lists⟩ : Store) k = L.map encodePushElem := by
    unfold listAtS
    dsimp only
    rw [lookupA_updateA_self]
    rfl
  refine ⟨?_, ?_, ?_, ?_, ?_, ?_, ?_⟩
  · rw [hlp]
    dsimp only
    rw [hlitems, List.reverse_reverse, h0, List.append_nil]
    exact hstoreget
  · rw [hrp]
    dsimp only
    rw [hritems, h0, List.nil_append]
    exact hstoreget
  · rw [hlp]
    dsimp only
    rw [hlitems]
  · rw [hrp]
    dsimp only
    rw [hritems]
  · rw [hlp]
    dsimp only
    rw [hlitems, List.reverse_reverse, h0, List.append_nil]
    rw [lrange_nofault k 0 (-1)
      ⟨⟨st.store.strings, updateA k (L.map encodePushElem) st.store.lists⟩,
        [], st.trace ++ [Event.lpushEv k ((L.map encodePushElem).reverse)]⟩
      rfl]
    dsimp only
    rw [show listAtS
        (⟨st.store.strings, updateA k (L.map encodePushElem)
          st.store.lists⟩ : Store) k = L.map encodePushElem from hstoreget]
    rw [rangeSlice_all]
    rw [if_neg (by
      intro hcontra
      exact hmapne (List.map_eq_nil_iff.mp hcontra))]
  · rw [hrp]
    dsimp only
    rw [hritems, h0, List.nil_append]
    rw [lrange_nofault k 0 (-1)
      ⟨⟨st.store.strings, updateA k (L.map encodePushElem) st.store.lists⟩,
        [], st.trace ++ [Event.rpushEv k (L.map encodePushElem)]⟩
      rfl]
    dsimp only
    rw [show listAtS
        (⟨st.store.strings, updateA k (L.map encodePushElem)
          st.store.lists⟩ : Store) k = L.map encodePushElem from hstoreget]
    rw [rangeSlice_all]
    rw [if_neg (by
      intro hcontra
      exact hmapne (List.map_eq_nil_iff.mp hcontra))]
  · intro ss hss
    subst hss
    rw [List.map_map, List.map_map]
    exact map_wireText_encode_str ss

/-- Claim C2 witness. -/
theorem claim_C2_witness :
    emptyState.faults = [] ∧ listAtS emptyState.store "q" = [] ∧
    ([PyVal.str "a", PyVal.str "b"] : List PyVal) ≠ [] ∧
    listAtS (RedisTools.lpush "q"
        (.listOf [PyVal.str "a", PyVal.str "b"]) none emptyState).2.store
      "q" = [PyVal.str "a", PyVal.str "b"].map encodePushElem := by
  refine ⟨rfl, rfl, List.cons_ne_nil _ _, ?_⟩
  exact (claim_C2_push_order "q" [PyVal.str "a", PyVal.str "b"] emptyState
    rfl rfl (List.cons_ne_nil _ _)).1

/-- Claim C5 (amended): with no store failure, `lpop` (resp. `rpop`)
removes the first (resp. last) element of a non-empty list; the removed
element is returned when its text is non-empty, while the
"empty or does not exist" sentinel is returned when the list is absent or
empty - and also, because the source tests Python truthiness
(`value if value else ...`) rather than `value is not None`, when the
removed element is the empty string (the element is still removed); no
execution raises. -/
theorem claim_C5_pop_amended (k : String) (st : RState)
    (hf : st.faults = []) :
    (listAtS st.store k = [] →
      (RedisTools.lpop k st).1 =
        Except.ok (.rs (RedisTools.listSentinel k)) ∧
      (RedisTools.rpop k st).1 =
        Except.ok (.rs (RedisTools.listSentinel k)) ∧
      (RedisTools.lpop k st).2.store = st.store ∧
      (RedisTools.rpop k st).2.store = st.store) ∧
    (∀ b rest, listAtS st.store k = b :: rest →
      listAtS (RedisTools.lpop k st).2.store k = rest ∧
      (wireText b ≠ "" →
        (RedisTools.lpop k st).1 = Except.ok (.rs (wireText b))) ∧
      (wireText b = "" →
        (RedisTools.lpop k st).1 =
          Except.ok (.rs (RedisTools.listSentinel k)))) ∧
    (∀ l b, listAtS st.store k = l ++ [b] →
      listAtS (RedisTools.rpop k st).2.store k = l ∧
      (wireText b ≠ "" →
        (RedisTools.rpop k st).1 = Except.ok (.rs (wireText b))) ∧
      (wireText b = "" →
        (RedisTools.rpop k st).1 =
          Except.ok (.rs (RedisTools.listSentinel k)))) ∧
    (∀ st2, retOk (RedisTools.lpop k st2) = true ∧
      retOk (RedisTools.rpop k st2) = true) := by
  refine ⟨?_, ?_, ?_,
    fun st2 => ⟨oneCall_retOk _ _ _ _ _, oneCall_retOk _ _ _ _ _⟩⟩
  · intro hl
    rw [lpop_nofault_nil k st hf hl, rpop_nofault_nil k st hf hl]
    exact ⟨rfl, rfl, rfl, rfl⟩
  · intro b rest hl
    have h := lpop_nofault_cons k st b rest hf hl
    refine ⟨?_, ?_, ?_⟩
    · rw [h]
      dsimp only
      unfold listAtS
      dsimp only
      rw [lookupA_updateA_self]
      rfl
    · intro hb
      rw [h]
      dsimp only
      rw [if_neg hb]
    · intro hb
      rw [h]
      dsimp only
      rw [if_pos hb]
  · intro l b hl
    have h := rpop_nofault_concat k st l b hf hl
    refine ⟨?_, ?_, ?_⟩
    · rw [h]
      dsimp only
      unfold listAtS
      dsimp only
      rw [lookupA_updateA_self]
      rfl
    · intro hb
      rw [h]
      dsimp only
      rw [if_neg hb]
    · intro hb
      rw [h]
      dsimp only
      rw [if_pos hb]

/-- A list whose head element is the empty byte string. -/
def popBugState : RState := ⟨⟨[], [("q", [[], [97]])]⟩, [], []⟩

/-- Claim C5 counterexample: the list at `q` has two elements (so it is
neither absent nor empty), yet `lpop` returns the sentinel - the head
element is the empty string, which is falsy in Python - while still
removing it. -/
theorem claim_C5_counterexample :
    listAtS popBugState.store "q" = [[], [97]] ∧
    (RedisTools.lpop "q" popBugState).1 =
      Except.ok (.rs (RedisTools.listSentinel "q")) ∧
    listAtS (RedisTools.lpop "q" popBugState).2.store "q" = [[97]] := by
  exact ⟨rfl, rfl, rfl⟩

/-- A list of two non-empty text elements. -/
def popState : RState := ⟨⟨[], [("q", [[97], [98]])]⟩, [], []⟩

/-- Claim C5 witness. -/
theorem claim_C5_witness :
    popState.faults = [] ∧ listAtS popState.store "q" = [[97], [98]] ∧
    wireText [97] ≠ "" ∧
    (RedisTools.lpop "q" popState).1 = Except.ok (.rs (wireText [97])) := by
  refine ⟨rfl, by decide, by decide, ?_⟩
  exact (((claim_C5_pop_amended "q" popState rfl).2.1 [97] [[98]]
    (by decide)).2.1) (by decide)

/-- Claim C6 (amended): `set(key, value, ttl)` with a nonzero ttl issues a
single atomic `SETEX` store command (succeeding, with the ttl named in the
confirmation, only for positive ttl; a negative ttl is rejected by the
store and translated to the error string); with an absent or zero ttl it
issues a plain `SET` and the confirmation names no ttl (Python truthiness
of the `expiration` argument decides the branch, so ttl 0 behaves like
absence). -/
theorem claim_C6_set_ttl (k : String) (v : PyVal) (st : RState)
    (hf : st.faults = []) :
    (∀ n : Int, n ≠ 0 →
      (RedisTools.set k v (some n) st).2.trace =
        st.trace ++ [Event.setexEv k n (setEncodedValue v)] ∧
      (0 < n → (RedisTools.set k v (some n) st).1 =
        Except.ok (.rs ("Successfully set " ++ k ++ " with expiration " ++
          toString n ++ " seconds"))) ∧
      (n ≤ 0 → (RedisTools.set k v (some n) st).1 =
        Except.ok (.rs ("Error setting key " ++ k ++
          ": invalid expire time in \x27setex\x27 command")))) ∧
    ((RedisTools.set k v (some 0) st).2.trace =
      st.trace ++ [Event.setEv k (setEncodedValue v)] ∧
      (RedisTools.set k v (some 0) st).1 =
        Except.ok (.rs ("Successfully set " ++ k))) ∧
    ((RedisTools.set k v none st).2.trace =
      st.trace ++ [Event.setEv k (setEncodedValue v)] ∧
      (RedisTools.set k v none st).1 =
        Except.ok (.rs ("Successfully set " ++ k))) := by
  refine ⟨?_, ?_, ?_⟩
  · intro n hn
    have hnb : truthyExp (some n) = true := by simp [truthyExp, hn]
    refine ⟨set_truthy_trace k v n st hnb, ?_, ?_⟩
    · intro hp
      exact set_truthy_nofault_pos k v n st hf hnb hp
    · intro hp
      exact set_truthy_nofault_neg k v n st hf hnb hp
  · have h := set_falsy_nofault k v (some 0) st hf rfl
    exact ⟨set_falsy_trace k v (some 0) st rfl, by rw [h]⟩
  · have h := set_falsy_nofault k v none st hf rfl
    exact ⟨set_falsy_trace k v none st rfl, by rw [h]⟩

/-- Claim C6 counterexample: the claim says a non-positive supplied ttl
performs a plain set and that a supplied ttl is always named in the
confirmation.  At ttl = -1 the code issues a `SETEX` command (recorded in
the trace), not a plain `SET`; at ttl = 0 the confirmation does not name
the supplied ttl. -/
theorem claim_C6_counterexample :
    (RedisTools.set "k" (.str "v") (some (-1)) emptyState).2.trace =
      [Event.setexEv "k" (-1) (pyEncodeStr "v")] ∧
    [Event.setexEv "k" (-1) (pyEncodeStr "v")] ≠
      [Event.setEv "k" (pyEncodeStr "v")] ∧
    (RedisTools.set "k" (.str "v") (some 0) emptyState).1 =
      Except.ok (.rs "Successfully set k") := by
  refine ⟨rfl, by decide, rfl⟩

/-- Claim C6 witness. -/
theorem claim_C6_witness :
    emptyState.faults = [] ∧ (5 : Int) ≠ 0 ∧ (0 : Int) < 5 ∧
    (RedisTools.set "k" (.str "v") (some 5) emptyState).2.trace =
      [Event.setexEv "k" 5 (pyEncodeStr "v")] ∧
    (RedisTools.set "k" (.str "v") (some 5) emptyState).1 =
      Except.ok (.rs "Successfully set k with expiration 5 seconds") := by
  refine ⟨rfl, by decide, by decide, ?_, ?_⟩
  · have h := ((claim_C6_set_ttl "k" (.str "v") emptyState rfl).1 5
      (by decide)).1
    exact h
  · have h := ((claim_C6_set_ttl "k" (.str "v") emptyState rfl).1 5
      (by decide)).2.1 (by decide)
    exact h

theorem strData_append_cons (x y : String) (c : Char) (t : List Char)
    (hx : x.data = c :: t) : (x ++ y).data = c :: (t ++ y.data) := by
  rw [String.data_append, hx, List.cons_append]

/-- Claim C10: pushing an empty list of values issues a store push carrying
zero values, which the store rejects as an arity error; the operation
returns the translated error string (with no store mutation) and never the
success confirmation, for any store behaviour. -/
theorem claim_C10_empty_push_rejected (k : String) (st : RState)
    (hf : st.faults = []) :
    RedisTools.lpush k (.listOf []) none st =
      (Except.ok (.rs ("Error pushing value(s) to list \x27" ++ k ++
          "\x27: " ++ "wrong number of arguments for \x27lpush\x27 command")),
        ⟨st.store, [], st.trace ++ [Event.lpushEv k []]⟩) ∧
    RedisTools.rpush k (.listOf []) none st =
      (Except.ok (.rs ("Error pushing value(s) to list \x27" ++ k ++
          "\x27: " ++ "wrong number of arguments for \x27rpush\x27 command")),
        ⟨st.store, [], st.trace ++ [Event.rpushEv k []]⟩) ∧
    (∀ st2, (RedisTools.lpush k (.listOf []) none st2).1 ≠
      Except.ok (.rs ("Value(s) \x27" ++ pyStrPush (.listOf []) ++
        "\x27 pushed to the left of list \x27" ++ k ++ "\x27."))) ∧
    (∀ st2, (RedisTools.rpush k (.listOf []) none st2).1 ≠
      Except.ok (.rs ("Value(s) \x27" ++ pyStrPush (.listOf []) ++
        "\x27 pushed to the right of list \x27" ++ k ++ "\x27."))) := by
  have hEdata : ∀ m : String,
      ("Error pushing value(s) to list \x27" ++ k ++ "\x27: " ++ m).data.head?
        = some 'E' := by
    intro m
    have h1 : ("Error pushing value(s) to list \x27" : String).data =
        'E' :: ("rror pushing value(s) to list \x27" : String).data := rfl
    have h2 := strData_append_cons "Error pushing value(s) to list \x27" k
      'E' _ h1
    have h3 := strData_append_cons
      ("Error pushing value(s) to list \x27" ++ k) "\x27: " 'E' _ h2
    have h4 := strData_append_cons
      (("Error pushing value(s) to list \x27" ++ k) ++ "\x27: ") m 'E' _ h3
    rw [h4]
    rfl
  have hVdataL : ("Value(s) \x27" ++ pyStrPush (.listOf []) ++
      "\x27 pushed to the left of list \x27" ++ k ++ "\x27.").data.head? =
      some 'V' := by
    have h1 : ("Value(s) \x27" : String).data =
        'V' :: ("alue(s) \x27" : String).data := rfl
    have h2 := strData_append_cons "Value(s) \x27" (pyStrPush (.listOf []))
      'V' _ h1
    have h3 := strData_append_cons _ "\x27 pushed to the left of list \x27"
      'V' _ h2
    have h4 := strData_append_cons _ k 'V' _ h3
    have h5 := strData_append_cons _ "\x27." 'V' _ h4
    rw [h5]
    rfl
  have hVdataR : ("Value(s) \x27" ++ pyStrPush (.listOf []) ++
      "\x27 pushed to the right of list \x27" ++ k ++ "\x27.").data.head? =
      some 'V' := by
    have h1 : ("Value(s) \x27" : String).data =
        'V' :: ("alue(s) \x27" : String).data := rfl
    have h2 := strData_append_cons "Value(s) \x27" (pyStrPush (.listOf []))
      'V' _ h1
    have h3 := strData_append_cons _ "\x27 pushed to the right of list \x27"
      'V' _ h2
    have h4 := strData_append_cons _ k 'V' _ h3
    have h5 := strData_append_cons _ "\x27." 'V' _ h4
    rw [h5]
    rfl
  refine ⟨?_, ?_, ?_, ?_⟩
  · unfold RedisTools.lpush
    rw [show truthyExp none = false from rfl]
    rw [pushCall_noexp_nofault_err _ _ _ _ _ _ st
      ("wrong number of arguments for \x27lpush\x27 command") hf rfl]
    rfl
  · unfold RedisTools.rpush
    rw [show truthyExp none = false from rfl]
    rw [pushCall_noexp_nofault_err _ _ _ _ _ _ st
      ("wrong number of arguments for \x27rpush\x27 command") hf rfl]
    rfl
  · intro st2 h
    unfold RedisTools.lpush at h
    obtain ⟨m, hm⟩ := pushCall_allerr_result
      (.lpushEv k (RedisTools.lpushItems (.listOf [])))
      (lpushAct k (RedisTools.lpushItems (.listOf [])))
      (truthyExp none) (.expireEv k ((none : Option Int).getD 0))
      (expireAct k ((none : Option Int).getD 0))
      (.rs ("Value(s) \x27" ++ pyStrPush (.listOf []) ++
        "\x27 pushed to the left of list \x27" ++ k ++ "\x27."))
      (fun m => .rs ("Error pushing value(s) to list \x27" ++ k ++
        "\x27: " ++ m))
      st2
      (fun s => ⟨"wrong number of arguments for \x27lpush\x27 command", rfl⟩)
    rw [hm] at h
    have h2 := Ret.rs.inj (Except.ok.inj h)
    have hcontr := congrArg (fun s : String => s.data.head?) h2
    simp only at hcontr
    rw [hEdata m, hVdataL] at hcontr
    exact absurd (Option.some.inj hcontr) (by decide)
  · intro st2 h
    unfold RedisTools.rpush at h
    obtain ⟨m, hm⟩ := pushCall_allerr_result
      (.rpushEv k (RedisTools.rpushItems (.listOf [])))
      (rpushAct k (RedisTools.rpushItems (.listOf [])))
      (truthyExp none) (.expireEv k ((none : Option Int).getD 0))
      (expireAct k ((none : Option Int).getD 0))
      (.rs ("Value(s) \x27" ++ pyStrPush (.listOf []) ++
        "\x27 pushed to the right of list \x27" ++ k ++ "\x27."))
      (fun m => .rs ("Error pushing value(s) to list \x27" ++ k ++
        "\x27: " ++ m))
      st2
      (fun s => ⟨"wrong number of arguments for \x27rpush\x27 command", rfl⟩)
    rw [hm] at h
    have h2 := Ret.rs.inj (Except.ok.inj h)
    have hcontr := congrArg (fun s : String => s.data.head?) h2
    simp only at hcontr
    rw [hEdata m, hVdataR] at hcontr
    exact absurd (Option.some.inj hcontr) (by decide)

/-- Claim C10 witness. -/
theorem claim_C10_witness :
    emptyState.faults = [] ∧
    (RedisTools.lpush "q" (.listOf []) none emptyState).1 =
      Except.ok (.rs ("Error pushing value(s) to list \x27q\x27: " ++
        "wrong number of arguments for \x27lpush\x27 command")) := by
  refine ⟨rfl, ?_⟩
  have h := (claim_C10_empty_push_rejected "q" emptyState rfl).1
  rw [h]
  rfl
